import Mathlib

/-!
Verification of the profile engine of django-ca (`ca/django_ca/profiles.py`).

The definitions below are a shallow embedding of `profiles.py`.  Python dicts
keyed by extension OID are modelled as functions `String → Option Extension`
(the working per-call mapping of `create_cert`) or as association lists with
insertion-order semantics (the `Profile.extensions` attribute, whose iteration
order matters in `Profile._get_extensions`).  Machinery that `profiles.py`
imports from modules outside the sources at hand (`django_ca.utils`,
`django_ca.constants`, `django_ca.ca_settings`, `django_ca.extensions`) is
modelled from the specification; each such definition carries a doc comment
saying so.
-/

namespace DjangoCA

/-! ### Object identifiers

Dotted-string object identifiers, as used by `cryptography.x509.oid` and
imported by `profiles.py`. -/

namespace ExtensionOID

def BASIC_CONSTRAINTS : String := "2.5.29.19"

def SUBJECT_ALTERNATIVE_NAME : String := "2.5.29.17"

def ISSUER_ALTERNATIVE_NAME : String := "2.5.29.18"

def AUTHORITY_INFORMATION_ACCESS : String := "1.3.6.1.5.5.7.1.1"

def CRL_DISTRIBUTION_POINTS : String := "2.5.29.31"

def AUTHORITY_KEY_IDENTIFIER : String := "2.5.29.35"

def SUBJECT_KEY_IDENTIFIER : String := "2.5.29.14"

def OCSP_NO_CHECK : String := "1.3.6.1.5.5.7.48.1.5"

end ExtensionOID

namespace AuthorityInformationAccessOID

def OCSP : String := "1.3.6.1.5.5.7.48.1"

def CA_ISSUERS : String := "1.3.6.1.5.5.7.48.2"

end AuthorityInformationAccessOID

namespace NameOID

def COMMON_NAME : String := "2.5.4.3"

def COUNTRY_NAME : String := "2.5.4.6"

def STATE_OR_PROVINCE_NAME : String := "2.5.4.8"

def LOCALITY_NAME : String := "2.5.4.7"

def ORGANIZATION_NAME : String := "2.5.4.10"

def ORGANIZATIONAL_UNIT_NAME : String := "2.5.4.11"

def EMAIL_ADDRESS : String := "1.2.840.113549.1.9.1"

end NameOID

/-! ### Data model -/

/-- A typed general name, as in `cryptography.x509` (`DNSName`, `IPAddress`,
`UniformResourceIdentifier`, `DirectoryName`, other types folded into one
constructor). -/
inductive GeneralName where
  | dns (value : String)
  | ip (value : String)
  | uri (value : String)
  | dirName (value : String)
  | otherName (tag : String) (value : String)
deriving DecidableEq, Repr

/-- `str(val.value)` on a general name, as used by
`Profile._update_cn_from_san`. -/
def GeneralName.strValue : GeneralName → String
  | .dns v => v
  | .ip v => v
  | .uri v => v
  | .dirName v => v
  | .otherName _ v => v

/-- Whether the general name is a `DNSName` or `IPAddress` (the `cn_types`
tuple in `Profile._update_cn_from_san`). -/
def GeneralName.isCnType : GeneralName → Bool
  | .dns _ => true
  | .ip _ => true
  | _ => false

/-- One `x509.AccessDescription` of an AuthorityInformationAccess value:
an access method OID (dotted string) and an access location. -/
structure AccessDescription where
  access_method : String
  access_location : String
deriving DecidableEq, Repr

/-- The payload of an extension.  Only the shapes that `profiles.py`
inspects are structured; the rest carry an opaque payload. -/
inductive ExtensionValue where
  | basicConstraints (ca : Bool) (path_length : Option Nat)
  | subjectAlternativeName (names : List GeneralName)
  | issuerAlternativeName (names : List GeneralName)
  | authorityInformationAccess (descriptions : List AccessDescription)
  | crlDistributionPoints (payload : String)
  | authorityKeyIdentifier (payload : String)
  | subjectKeyIdentifier (key_id : String)
  | otherValue (payload : String)
deriving DecidableEq, Repr

/-- An `x509.Extension`: OID, critical flag and value. -/
structure Extension where
  oid : String
  critical : Bool
  value : ExtensionValue
deriving DecidableEq, Repr

/-- The general-name list of a SubjectAlternativeName extension.  The source
(`Profile._update_cn_from_san`, `Profile._update_san_from_cn`) reaches the
list through `typing.cast`, asserting that the value stored under the SAN OID
is a SubjectAlternativeName; other shapes cannot occur there. -/
def Extension.sanNames : Extension → List GeneralName
  | ⟨_, _, .subjectAlternativeName ns⟩ => ns
  | _ => []

/-- The access-description list of an AuthorityInformationAccess extension.
The source (`Profile._update_authority_information_access`) reaches the list
through `typing.cast`; other shapes cannot occur under the AIA OID. -/
def Extension.aiaDescriptions : Extension → List AccessDescription
  | ⟨_, _, .authorityInformationAccess ds⟩ => ds
  | _ => []

/-- An `x509.Name`: ordered sequence of (attribute-type OID, value) pairs. -/
abbrev Name := List (String × String)

/-- Whether a character list starts with the given one (used to model
string prefix tests on the underlying character data). -/
def listStartsWith : List Char → List Char → Bool
  | _, [] => true
  | [], _ :: _ => false
  | a :: as, b :: bs => a = b && listStartsWith as bs

/-- `s.startswith(pre)` over the character data. -/
def strStartsWith (s pre : String) : Bool :=
  listStartsWith s.data pre.data

/-- Drop the first `n` characters of a string. -/
def strDrop (s : String) (n : Nat) : String :=
  ⟨s.data.drop n⟩

/-- Lexicographic comparison of character lists by code point — the
comparison Python uses between strings. -/
def charListLe : List Char → List Char → Bool
  | [], _ => true
  | _ :: _, [] => false
  | a :: as, b :: bs =>
    if a.toNat < b.toNat then true
    else if b.toNat < a.toNat then false
    else charListLe as bs

/-- Python `<=` on strings: lexicographic by code point. -/
def stringLe (a b : String) : Bool :=
  charListLe a.data b.data

/-- `x509.Name.get_attributes_for_oid`. -/
def get_attributes_for_oid (n : Name) (oid : String) : List (String × String) :=
  n.filter (fun a => a.1 = oid)

/-- The Python errors raised by the code at hand: `KeyError` and
`ValueError` (each carrying its message). -/
inductive PyError where
  | keyError (msg : String)
  | valueError (msg : String)
deriving DecidableEq, Repr

/-! ### Python dict model

The working extension mapping of `create_cert` is a dict keyed by OID; it is
only ever read and written pointwise, so it is modelled as a function. -/

/-- The working extension mapping of `create_cert`
(`typehints.ExtensionDict`). -/
abbrev ExtensionMapping := String → Option Extension

/-- The empty dict. -/
def ExtensionMapping.empty : ExtensionMapping := fun _ => none

/-- `d[oid] = e`. -/
def ExtensionMapping.set (m : ExtensionMapping) (oid : String) (e : Extension) :
    ExtensionMapping :=
  fun o => if o = oid then some e else m o

/-- `d.pop(oid, None)`. -/
def ExtensionMapping.pop (m : ExtensionMapping) (oid : String) : ExtensionMapping :=
  fun o => if o = oid then none else m o

/-- `d.setdefault(oid, e)`. -/
def ExtensionMapping.setdefault (m : ExtensionMapping) (oid : String) (e : Extension) :
    ExtensionMapping :=
  fun o => if o = oid then some ((m oid).getD e) else m o

/-! Association lists with Python-dict semantics: used for dicts whose
iteration order the source relies on (`Profile.extensions`). -/

/-- Dict lookup on an association list (first entry with the key wins;
Python dicts hold each key at most once). -/
def lookupKey {α : Type} : List (String × α) → String → Option α
  | [], _ => none
  | p :: rest, k => if p.1 = k then some p.2 else lookupKey rest k

/-- `d[k] = v` on an association list: overwrite in place if the key exists
(keeping its position, as Python dicts do), else append. -/
def dictSet {α : Type} (l : List (String × α)) (k : String) (v : α) :
    List (String × α) :=
  if l.any (fun p => p.1 = k) then
    l.map (fun p => if p.1 = k then (k, v) else p)
  else
    l ++ [(k, v)]

/-- `d.setdefault(k, v)` on an association list. -/
def dictSetdefault {α : Type} (l : List (String × α)) (k : String) (v : α) :
    List (String × α) :=
  if l.any (fun p => p.1 = k) then l else l ++ [(k, v)]

/-- Python dict equality (`==`) on association lists: same keys with equal
values, regardless of insertion order. -/
def dictBEq {α : Type} [DecidableEq α] (a b : List (String × α)) : Bool :=
  a.all (fun p => lookupKey b p.1 = some p.2) &&
    b.all (fun p => lookupKey a p.1 = some p.2)

/-! ### Hash algorithms and profile data -/

/-- A hash-algorithm instance.  `typeName` is the Python class
(e.g. `SHA256`); `instanceId` distinguishes separately constructed instances
of the same class, which are distinct Python objects but the same type. -/
structure HashAlgorithm where
  typeName : String
  instanceId : Nat
deriving DecidableEq, Repr

/-- The possible values of `Profile.subject` after `__init__`: `None`,
`False`, or an `x509.Name`. -/
inductive SubjectSetting where
  | noneValue
  | falseValue
  | nameValue (n : Name)
deriving DecidableEq, Repr

/-! ### Tables modelled from the spec

`profiles.py` imports these from `django_ca.constants` and uses them in
`Profile.__init__`; the constants module is not among the sources at hand. -/

/-- Modelled from the spec: `EXTENSION_KEY_OIDS` from `django_ca.constants`
maps each recognized extension key (the keys of the structured extension
dict format, §6) to that extension's OID.  Unknown keys are absent, so a
subscript access on the real dict raises `KeyError`. -/
def EXTENSION_KEY_OIDS : List (String × String) :=
  [("basic_constraints", ExtensionOID.BASIC_CONSTRAINTS),
   ("subject_alternative_name", ExtensionOID.SUBJECT_ALTERNATIVE_NAME),
   ("issuer_alternative_name", ExtensionOID.ISSUER_ALTERNATIVE_NAME),
   ("authority_information_access", ExtensionOID.AUTHORITY_INFORMATION_ACCESS),
   ("crl_distribution_points", ExtensionOID.CRL_DISTRIBUTION_POINTS),
   ("authority_key_identifier", ExtensionOID.AUTHORITY_KEY_IDENTIFIER),
   ("subject_key_identifier", ExtensionOID.SUBJECT_KEY_IDENTIFIER),
   ("ocsp_no_check", ExtensionOID.OCSP_NO_CHECK)]

/-- Modelled from the spec: `EXTENSION_DEFAULT_CRITICAL` from
`django_ca.constants` gives each extension kind's per-variant default
critical flag (§4.1); BasicConstraints defaults to critical. -/
def EXTENSION_DEFAULT_CRITICAL (oid : String) : Bool :=
  oid = ExtensionOID.BASIC_CONSTRAINTS

/-- Modelled from the spec: `HASH_ALGORITHM_TYPES` from
`django_ca.constants` maps recognized hash-algorithm names to their classes;
`Profile.__init__` instantiates the class (a fresh instance, here
`instanceId = 0`). -/
def HASH_ALGORITHM_TYPES : List (String × String) :=
  [("SHA-224", "SHA224"), ("SHA-256", "SHA256"),
   ("SHA-384", "SHA384"), ("SHA-512", "SHA512")]

/-- Modelled from the spec: the recognized name-attribute keys of the
Name/Subject utilities (§4.3), mapping each key to its attribute-type OID. -/
def NAME_ATTR_OIDS : List (String × String) :=
  [("C", NameOID.COUNTRY_NAME), ("ST", NameOID.STATE_OR_PROVINCE_NAME),
   ("L", NameOID.LOCALITY_NAME), ("O", NameOID.ORGANIZATION_NAME),
   ("OU", NameOID.ORGANIZATIONAL_UNIT_NAME), ("CN", NameOID.COMMON_NAME),
   ("emailAddress", NameOID.EMAIL_ADDRESS)]

/-- Modelled from the spec: `x509_name` from `django_ca.utils` turns an
iterable of (key, value) pairs into an ordered subject, failing with a
`ValueError` naming the unknown attribute key if a key is not in the
recognized attribute-type table (§4.3). -/
def x509_name_from (acc : Name) : List (String × String) → Except PyError Name
  | [] => .ok acc
  | p :: rest =>
    match lookupKey NAME_ATTR_OIDS p.1 with
    | some oid => x509_name_from (acc ++ [(oid, p.2)]) rest
    | none => .error (.valueError (p.1 ++ ": Unknown attribute key."))

/-- See `x509_name_from`; starts from the empty subject. -/
def x509_name (pairs : List (String × String)) : Except PyError Name :=
  x509_name_from [] pairs

/-- The `Profile` class: its attributes after `__init__`. -/
structure Profile where
  name : String
  subject : SubjectSetting
  algorithm : Option HashAlgorithm
  extensions : List (String × Option Extension)
  cn_in_san : Bool
  expires : Nat
  add_crl_url : Bool
  add_issuer_url : Bool
  add_ocsp_url : Bool
  add_issuer_alternative_name : Bool
  description : String
  autogenerated : Bool

/-! ### `Profile.__init__` (profiles.py lines 67-137) -/

/-- One value of the `extensions` constructor argument: an `x509.Extension`
instance, an explicit `None` (deactivates the extension), or a parsable
structured dict `{critical?, value}` handled by `parse_extension`. -/
inductive ExtensionConfigValue where
  | instanceValue (e : Extension)
  | noneValue
  | parsableValue (critical : Option Bool) (value : ExtensionValue)
deriving DecidableEq, Repr

/-- Modelled from the spec: `parse_extension` from `django_ca.extensions`
builds the extension of the given key's OID from the structured dict form,
with `critical` defaulting to the per-variant default when omitted (§4.1).
An unknown key is a lookup error (`KeyError`-class, §7). -/
def parse_extension (key : String) (critical : Option Bool)
    (value : ExtensionValue) : Except PyError Extension :=
  match lookupKey EXTENSION_KEY_OIDS key with
  | none => .error (.keyError key)
  | some oid => .ok ⟨oid, critical.getD (EXTENSION_DEFAULT_CRITICAL oid), value⟩

/-- One iteration of the `for key, extension in extensions.items()` loop of
`Profile.__init__` (lines 119-127): an `x509.Extension` is stored under its
own OID, `None` under the key's OID from `EXTENSION_KEY_OIDS` (a dict
subscript, so `KeyError` on an unknown key), and anything else is run
through `parse_extension` and stored under the parsed extension's OID. -/
def processExtensionStep (acc : List (String × Option Extension))
    (p : String × ExtensionConfigValue) :
    Except PyError (List (String × Option Extension)) :=
  match p.2 with
  | .instanceValue e => .ok (dictSet acc e.oid (some e))
  | .noneValue =>
    match lookupKey EXTENSION_KEY_OIDS p.1 with
    | some oid => .ok (dictSet acc oid none)
    | none => .error (.keyError p.1)
  | .parsableValue c v =>
    (parse_extension p.1 c v).map (fun e => dictSet acc e.oid (some e))

/-- The loop of `Profile.__init__` (lines 119-127), starting from an
accumulated dict. -/
def processExtensionsFrom (acc : List (String × Option Extension)) :
    List (String × ExtensionConfigValue) →
    Except PyError (List (String × Option Extension))
  | [] => .ok acc
  | p :: rest =>
    match processExtensionStep acc p with
    | .error e => .error e
    | .ok acc2 => processExtensionsFrom acc2 rest

/-- The `for key, extension in extensions.items()` loop of
`Profile.__init__` (lines 119-127): builds `self.extensions`, a dict from
OID to extension-or-`None`, starting empty. -/
def processExtensions (exts : List (String × ExtensionConfigValue)) :
    Except PyError (List (String × Option Extension)) :=
  processExtensionsFrom [] exts

/-- The BasicConstraints default installed by `Profile.__init__`
(lines 130-137): `ca=False`, no path length, default critical flag. -/
def defaultBasicConstraints : Extension :=
  { oid := ExtensionOID.BASIC_CONSTRAINTS,
    critical := EXTENSION_DEFAULT_CRITICAL ExtensionOID.BASIC_CONSTRAINTS,
    value := .basicConstraints false none }

/-- The `subject` constructor argument of `Profile.__init__`: `None`,
`False`, an `x509.Name`, or an iterable of pairs (run through
`x509_name`). -/
inductive SubjectArg where
  | noneArg
  | falseArg
  | nameArg (n : Name)
  | pairsArg (pairs : List (String × String))
deriving DecidableEq, Repr

/-- The constructor arguments of one configured profile
(`CA_PROFILES[name]`). -/
structure ProfileConfig where
  subject : SubjectArg
  algorithm : Option String
  extensions : List (String × ExtensionConfigValue)
  cn_in_san : Bool
  expires : Option Nat
  description : String
  autogenerated : Bool
  add_crl_url : Bool
  add_ocsp_url : Bool
  add_issuer_url : Bool
  add_issuer_alternative_name : Bool

/-- Modelled from the spec: the configuration source (`ca_settings`, §6)
supplies the per-name profile configurations, the configured default
profile name, and global defaults for subject and expiry. -/
structure Settings where
  CA_PROFILES : List (String × ProfileConfig)
  CA_DEFAULT_PROFILE : String
  CA_DEFAULT_SUBJECT : Option Name
  CA_DEFAULT_EXPIRES : Nat

/-- The `subject` handling of `Profile.__init__` (lines 91-98): `None`
falls back to `CA_DEFAULT_SUBJECT`, `False` and an `x509.Name` are kept,
and an iterable of pairs is parsed by `x509_name`. -/
def initSubject (settings : Settings) (arg : SubjectArg) :
    Except PyError SubjectSetting :=
  match arg with
  | .noneArg =>
    .ok (match settings.CA_DEFAULT_SUBJECT with
      | some n => SubjectSetting.nameValue n
      | none => SubjectSetting.noneValue)
  | .falseArg => .ok .falseValue
  | .nameArg n => .ok (.nameValue n)
  | .pairsArg pairs =>
    match x509_name pairs with
    | .ok n => .ok (.nameValue n)
    | .error e => .error e

/-- The `algorithm` handling of `Profile.__init__` (lines 100-104): look
the name up in `HASH_ALGORITHM_TYPES` and instantiate it, re-raising an
unknown name as a `ValueError`. -/
def initAlgorithm (algorithm : Option String) :
    Except PyError (Option HashAlgorithm) :=
  match algorithm with
  | none => .ok none
  | some a =>
    match lookupKey HASH_ALGORITHM_TYPES a with
    | some t => .ok (some ⟨t, 0⟩)
    | none => .error (.valueError (a ++ ": Unknown hash algorithm."))

/-- `Profile.__init__` (lines 67-137).  Expiry given as a number of days;
`expires or ca_settings.CA_DEFAULT_EXPIRES` treats a zero timedelta as
falsy.  A fresh hash-algorithm instance gets `instanceId = 0`.  Attribute
assignments happen in source order: subject, algorithm, extensions loop,
then the BasicConstraints `setdefault`. -/
def profileInit (settings : Settings) (name : String) (cfg : ProfileConfig) :
    Except PyError Profile :=
  match initSubject settings cfg.subject with
  | .error e => .error e
  | .ok subject =>
    match initAlgorithm cfg.algorithm with
    | .error e => .error e
    | .ok algorithm =>
      match processExtensions cfg.extensions with
      | .error e => .error e
      | .ok exts0 =>
        .ok
          { name := name
            subject := subject
            algorithm := algorithm
            extensions := dictSetdefault exts0 ExtensionOID.BASIC_CONSTRAINTS
              (some defaultBasicConstraints)
            cn_in_san := cfg.cn_in_san
            expires :=
              match cfg.expires with
              | some d => if d = 0 then settings.CA_DEFAULT_EXPIRES else d
              | none => settings.CA_DEFAULT_EXPIRES
            add_crl_url := cfg.add_crl_url
            add_issuer_url := cfg.add_issuer_url
            add_ocsp_url := cfg.add_ocsp_url
            add_issuer_alternative_name := cfg.add_issuer_alternative_name
            description := cfg.description
            autogenerated := cfg.autogenerated }

/-- `get_profile` (lines 556-570): resolve the default name when called
with `None`, look the name up in `CA_PROFILES` (`KeyError` when absent) and
construct a fresh `Profile` from the configuration. -/
def get_profile (settings : Settings) (name : Option String) :
    Except PyError Profile :=
  let n := match name with
    | none => settings.CA_DEFAULT_PROFILE
    | some s => s
  match lookupKey settings.CA_PROFILES n with
  | none => .error (.keyError n)
  | some cfg => profileInit settings n cfg

/-! ### `Profile.__eq__` (lines 139-156) -/

/-- The `algo` test of `Profile.__eq__`:
`isinstance(value.algorithm, type(self.algorithm))`.  Two `None`s match
(`type(None)` is `NoneType`), two instances match exactly when their classes
agree (the hash classes are unrelated, so `isinstance` means same type), and
a `None`/instance mix never matches. -/
def sameAlgorithmType (selfAlg valueAlg : Option HashAlgorithm) : Bool :=
  match selfAlg, valueAlg with
  | none, none => true
  | some a, some b => a.typeName = b.typeName
  | _, _ => false

/-- `Profile.__eq__` (lines 139-156): compares name, subject, algorithm
type, the extensions dict, `cn_in_san`, `expires`, the four `add_*` toggles
and `description`.  `autogenerated` is not compared. -/
def profileEq (a b : Profile) : Bool :=
  decide (a.name = b.name) && decide (a.subject = b.subject) &&
    sameAlgorithmType a.algorithm b.algorithm &&
    dictBEq a.extensions b.extensions &&
    decide (a.cn_in_san = b.cn_in_san) && decide (a.expires = b.expires) &&
    decide (a.add_crl_url = b.add_crl_url) &&
    decide (a.add_issuer_url = b.add_issuer_url) &&
    decide (a.add_ocsp_url = b.add_ocsp_url) &&
    decide (a.add_issuer_alternative_name = b.add_issuer_alternative_name) &&
    decide (a.description = b.description)

/-! ### Name utilities (from `django_ca.utils`, modelled from the spec) -/

/-- Modelled from the spec: the fixed attribute-type priority table of the
Name/Subject utilities (§4.3): C, ST, L, O, OU, CN, emailAddress; attribute
types not in the table sort after all known ones. -/
def nameAttributeSortKey (oid : String) : Nat :=
  if oid = NameOID.COUNTRY_NAME then 0
  else if oid = NameOID.STATE_OR_PROVINCE_NAME then 1
  else if oid = NameOID.LOCALITY_NAME then 2
  else if oid = NameOID.ORGANIZATION_NAME then 3
  else if oid = NameOID.ORGANIZATIONAL_UNIT_NAME then 4
  else if oid = NameOID.COMMON_NAME then 5
  else if oid = NameOID.EMAIL_ADDRESS then 6
  else 100

/-- Modelled from the spec: `sort_name` from `django_ca.utils` — stable
sort by the fixed attribute-type priority table (§4.3); insertion sort is
the stable sort used throughout this embedding. -/
def sort_name (n : Name) : Name :=
  List.insertionSort (fun a b => nameAttributeSortKey a.1 ≤ nameAttributeSortKey b.1) n

/-- Modelled from the spec: `merge_x509_names(base, overlay)` from
`django_ca.utils` — for each attribute type present in the overlay, the
base's entries of that type are dropped and the overlay's substituted;
types present only in the base are kept; the result is re-sorted (§4.3). -/
def merge_x509_names (base overlay : Name) : Name :=
  sort_name ((base.filter (fun a => !(overlay.any (fun b => b.1 = a.1)))) ++ overlay)

/-- Modelled from the spec: `parse_general_name` from `django_ca.utils` —
parse a string as a typed general name (DNS/IP/URI/…), with a typed prefix
taking precedence, a bare domain-looking string read as a DNS name, and
anything else failing with a `ValueError`-class error (§4.4 step 9). -/
def parse_general_name (value : String) : Except PyError GeneralName :=
  if strStartsWith value "DNS:" then .ok (.dns (strDrop value 4))
  else if strStartsWith value "IP:" then .ok (.ip (strDrop value 3))
  else if strStartsWith value "URI:" then .ok (.uri (strDrop value 4))
  else if strStartsWith value "dirname:" then .ok (.dirName (strDrop value 8))
  else if !value.data.isEmpty &&
      value.data.all (fun c => c.isAlphanum || c = '.' || c = '-' || c = '*')
  then .ok (.dns value)
  else .error (.valueError (value ++ ": Could not parse name as general name."))

namespace Profile

/-! ### The `create_cert` pipeline (profiles.py lines 164-553) -/

/-- `Profile._get_extensions` (lines 164-169): overlay the profile's own
extensions dict onto the working mapping — `None` values pop the OID,
others are `setdefault`ed. -/
def get_extensions (profExtensions : List (String × Option Extension))
    (extensions : ExtensionMapping) : ExtensionMapping :=
  profExtensions.foldl
    (fun acc p =>
      match p.2 with
      | none => acc.pop p.1
      | some e => acc.setdefault p.1 e)
    extensions

/-- `Profile._add_crl_distribution_points` (lines 441-449): copy the CA's
CRLDistributionPoints verbatim when the CA has one and the working mapping
has none yet. -/
def add_crl_distribution_points (extensions ca_extensions : ExtensionMapping) :
    ExtensionMapping :=
  match ca_extensions ExtensionOID.CRL_DISTRIBUTION_POINTS with
  | none => extensions
  | some caExt =>
    match extensions ExtensionOID.CRL_DISTRIBUTION_POINTS with
    | some _ => extensions
    | none => extensions.set ExtensionOID.CRL_DISTRIBUTION_POINTS caExt

/-- `Profile._update_issuer_alternative_name` (lines 451-456): copy the
CA's IssuerAlternativeName when present and the working mapping has none. -/
def update_issuer_alternative_name (extensions ca_extensions : ExtensionMapping) :
    ExtensionMapping :=
  match ca_extensions ExtensionOID.ISSUER_ALTERNATIVE_NAME with
  | none => extensions
  | some caExt =>
    match extensions ExtensionOID.ISSUER_ALTERNATIVE_NAME with
    | some _ => extensions
    | none => extensions.set ExtensionOID.ISSUER_ALTERNATIVE_NAME caExt

/-- `Profile._update_authority_information_access` (lines 388-439): merge
the CA's CA-Issuers/OCSP access descriptions into the working AIA.  The
two `+=` comprehensions check membership against the list as grown so far;
the final list is sorted by the access-method OID's dotted string (Python
`sorted` with a string key) and only a non-empty list is written back. -/
def update_authority_information_access (extensions ca_extensions : ExtensionMapping)
    (add_issuer_url add_ocsp_url : Bool) : ExtensionMapping :=
  match ca_extensions ExtensionOID.AUTHORITY_INFORMATION_ACCESS with
  | none => extensions
  | some ca_aia_ext =>
    let start : List AccessDescription × Bool × Bool × Bool :=
      match extensions ExtensionOID.AUTHORITY_INFORMATION_ACCESS with
      | none => ([], false, false, ca_aia_ext.critical)
      | some cert_aia_ext =>
        (cert_aia_ext.aiaDescriptions,
         cert_aia_ext.aiaDescriptions.any
           (fun ad => ad.access_method = AuthorityInformationAccessOID.OCSP),
         cert_aia_ext.aiaDescriptions.any
           (fun ad => ad.access_method = AuthorityInformationAccessOID.CA_ISSUERS),
         cert_aia_ext.critical)
    let ds0 := start.1
    let has_ocsp := start.2.1
    let has_issuer := start.2.2.1
    let critical := start.2.2.2
    let ds1 :=
      if add_issuer_url = true && has_issuer = false then
        ds0 ++ ca_aia_ext.aiaDescriptions.filter
          (fun ad => !(decide (ad ∈ ds0)) &&
            decide (ad.access_method = AuthorityInformationAccessOID.CA_ISSUERS))
      else ds0
    let ds2 :=
      if add_ocsp_url = true && has_ocsp = false then
        ds1 ++ ca_aia_ext.aiaDescriptions.filter
          (fun ad => !(decide (ad ∈ ds1)) &&
            decide (ad.access_method = AuthorityInformationAccessOID.OCSP))
      else ds1
    let sortedDs := List.insertionSort
      (fun a b => stringLe a.access_method b.access_method = true) ds2
    if sortedDs.isEmpty then extensions
    else
      extensions.set ExtensionOID.AUTHORITY_INFORMATION_ACCESS
        ⟨ExtensionOID.AUTHORITY_INFORMATION_ACCESS, critical,
         .authorityInformationAccess sortedDs⟩

/-- The access-description list held under the AIA OID of a working
mapping (empty when the mapping has no AIA entry); used to state the
properties of the AIA merge. -/
def workingAiaDescriptions (m : ExtensionMapping) : List AccessDescription :=
  match m ExtensionOID.AUTHORITY_INFORMATION_ACCESS with
  | none => []
  | some e => e.aiaDescriptions

end Profile

/-- The OID an `extensions` constructor entry ends up stored under in
`Profile.__init__`: the instance's own OID, or the key's OID from
`EXTENSION_KEY_OIDS` (both for the `None` branch and for
`parse_extension`). -/
def resolvedExtensionOid : String × ExtensionConfigValue → Option String
  | (_, .instanceValue e) => some e.oid
  | (k, .noneValue) => lookupKey EXTENSION_KEY_OIDS k
  | (k, .parsableValue _ _) => lookupKey EXTENSION_KEY_OIDS k

/-- A profile configuration is well formed when every extension key it
uses is recognized (in `EXTENSION_KEY_OIDS`), as the configuration source
is specified to supply (§6). -/
def extensionKeysRecognized (cfg : ProfileConfig) : Bool :=
  cfg.extensions.all
    (fun p =>
      match p.2 with
      | .instanceValue _ => true
      | .noneValue => (lookupKey EXTENSION_KEY_OIDS p.1).isSome
      | .parsableValue _ _ => (lookupKey EXTENSION_KEY_OIDS p.1).isSome)

/-- Whether a result is a `KeyError`-class failure. -/
def isKeyError {α : Type} : Except PyError α → Bool
  | .error (.keyError _) => true
  | _ => false

/-- The `CertificateAuthority` collaborator, at the interface consumed by
`create_cert` (§6): subject, optional signing algorithm, the extensions to
propagate to children, the AuthorityKeyIdentifier extension derived from its
key, and its private key (key loading is delegated to the crypto layer). -/
structure CertificateAuthority where
  subject : Name
  algorithm : Option HashAlgorithm
  extensions_for_certificate : ExtensionMapping
  authority_key_identifier_extension : Extension
  private_key : Nat

/-- The CSR collaborator: exposes `public_key()` (§6). -/
structure CertificateSigningRequest where
  public_key : Nat

namespace Profile

/-- `Profile._update_from_ca` (lines 458-492): AuthorityKeyIdentifier is
always `setdefault`ed from the CA; CRLDistributionPoints copied when
`add_crl_url`; the AIA merge always runs; IssuerAlternativeName copied when
`add_issuer_alternative_name is not False` (a plain truth test once the
`None` default has been resolved to a bool). -/
def update_from_ca (ca : CertificateAuthority) (extensions : ExtensionMapping)
    (add_crl_url add_ocsp_url add_issuer_url add_issuer_alternative_name : Bool) :
    ExtensionMapping :=
  let ca_extensions := ca.extensions_for_certificate
  let m1 := extensions.setdefault ExtensionOID.AUTHORITY_KEY_IDENTIFIER
    ca.authority_key_identifier_extension
  let m2 := if add_crl_url then add_crl_distribution_points m1 ca_extensions else m1
  let m3 := update_authority_information_access m2 ca_extensions
    add_issuer_url add_ocsp_url
  if add_issuer_alternative_name then update_issuer_alternative_name m3 ca_extensions
  else m3

/-- `Profile._update_cn_from_san` (lines 494-519): when the subject lacks a
CommonName, promote the first DNSName/IPAddress of the working SAN into it. -/
def update_cn_from_san (subject : Option Name) (extensions : ExtensionMapping) :
    Option Name :=
  if (match subject with
      | some s => !(get_attributes_for_oid s NameOID.COMMON_NAME).isEmpty
      | none => false) then
    subject
  else
    match extensions ExtensionOID.SUBJECT_ALTERNATIVE_NAME with
    | none => subject
    | some san_ext =>
      match san_ext.sanNames.find? (fun v => v.isCnType) with
      | none => subject
      | some val =>
        let common_name_name : Name := [(NameOID.COMMON_NAME, val.strValue)]
        match subject with
        | none => some common_name_name
        | some s => some (merge_x509_names s common_name_name)

/-- `Profile._update_san_from_cn` (lines 521-553): when `cn_in_san` holds
and the subject has a CommonName, parse it as a general name (wrapping a
parse failure in a new `ValueError`) and append it to the working SAN if
not already present, or create a fresh non-critical SAN holding just it. -/
def update_san_from_cn (cn_in_san : Bool) (subject : Name)
    (extensions : ExtensionMapping) : Except PyError ExtensionMapping :=
  if cn_in_san = false then .ok extensions
  else
    match get_attributes_for_oid subject NameOID.COMMON_NAME with
    | [] => .ok extensions
    | attr :: _ =>
      let common_name_value := attr.2
      match parse_general_name common_name_value with
      | .error _ =>
        .error (.valueError
          (common_name_value ++ ": Could not parse CommonName as subjectAlternativeName."))
      | .ok common_name =>
        match extensions ExtensionOID.SUBJECT_ALTERNATIVE_NAME with
        | some san_ext =>
          if common_name ∈ san_ext.sanNames then .ok extensions
          else
            .ok (extensions.set ExtensionOID.SUBJECT_ALTERNATIVE_NAME
              ⟨ExtensionOID.SUBJECT_ALTERNATIVE_NAME, san_ext.critical,
               .subjectAlternativeName (san_ext.sanNames ++ [common_name])⟩)
        | none =>
          .ok (extensions.set ExtensionOID.SUBJECT_ALTERNATIVE_NAME
            ⟨ExtensionOID.SUBJECT_ALTERNATIVE_NAME, false,
             .subjectAlternativeName [common_name]⟩)

/-- The CN/SAN validity check of `create_cert` (lines 307-310).  The Python
test is `not subject.get_attributes_for_oid(...) and not
cert_extensions.get(...)`; an `x509.Extension` object is always truthy, so
the second conjunct tests presence of the SAN OID in the working mapping. -/
def cn_san_check (subject : Name) (extensions : ExtensionMapping) :
    Except PyError Unit :=
  if (get_attributes_for_oid subject NameOID.COMMON_NAME).isEmpty &&
      (extensions ExtensionOID.SUBJECT_ALTERNATIVE_NAME).isNone then
    .error (.valueError "Must name at least a CN or a subjectAlternativeName.")
  else .ok ()

/-- The signing-algorithm resolution of `create_cert` (lines 295-299):
`if algorithm is None and ca.algorithm:` — only when no explicit algorithm
was passed and the CA has one does the profile's algorithm (or, failing
that, the CA's) get substituted. -/
def resolve_algorithm (algorithm profileAlgorithm caAlgorithm : Option HashAlgorithm) :
    Option HashAlgorithm :=
  match algorithm, caAlgorithm with
  | none, some caAlg =>
    (match profileAlgorithm with
     | some a => some a
     | none => some caAlg)
  | _, _ => algorithm

/-- Follows the spec's words for claim C5, for comparison with
`Profile.resolve_algorithm`: "explicit parameter, else Profile's stored
algorithm, else the CA's own algorithm". -/
def spec_resolve_algorithm (algorithm profileAlgorithm caAlgorithm : Option HashAlgorithm) :
    Option HashAlgorithm :=
  match algorithm with
  | some a => some a
  | none =>
    match profileAlgorithm with
    | some p => some p
    | none => caAlgorithm

/-- `Profile.get_expires` with `parse_expires` (modelled from the spec,
§4.4 step 8): explicit parameter, else the profile's stored duration,
converted to an absolute timestamp relative to now. -/
def get_expires (profileExpires : Nat) (expires : Option Nat) (now : Nat) : Nat :=
  now + expires.getD profileExpires

end Profile

/-- Modelled from the spec: `format_extensions` from
`django_ca.extensions.utils` applies the per-request URL-template
substitution across the URL-bearing extension values — AIA access locations
and CRLDistributionPoints (§4.4 step 10).  The substitution itself is the
`fmt` parameter. -/
def format_extension (fmt : String → String) (e : Extension) : Extension :=
  match e.value with
  | .authorityInformationAccess ds =>
    let formatted := ds.map
      (fun ad => { ad with access_location := fmt ad.access_location })
    { e with value := .authorityInformationAccess formatted }
  | .crlDistributionPoints payload =>
    { e with value := .crlDistributionPoints (fmt payload) }
  | _ => e

/-- Modelled from the spec: pointwise application of `format_extension`
over the working mapping (§4.4 step 10). -/
def format_extensions (fmt : String → String) (m : ExtensionMapping) :
    ExtensionMapping :=
  fun oid => (m oid).map (format_extension fmt)

/-- `x509.SubjectKeyIdentifier.from_public_key`, as added by `create_cert`
(lines 340-343): a non-critical SubjectKeyIdentifier derived from the
certified public key. -/
def subject_key_identifier_from_public_key (public_key : Nat) : Extension :=
  ⟨ExtensionOID.SUBJECT_KEY_IDENTIFIER, false,
   .subjectKeyIdentifier (toString public_key)⟩

/-- The signed certificate produced by the builder (lines 312-345): issuer
from the CA, resolved subject, the CSR's public key, resolved expiry and
algorithm, and the working extensions (plus a derived SubjectKeyIdentifier
when none was present).  The builder receives the extensions one by one;
here they are kept as the final OID mapping. -/
structure Certificate where
  serial : Nat
  issuer : Name
  subject : Name
  public_key : Nat
  not_after : Nat
  algorithm : Option HashAlgorithm
  extensions : ExtensionMapping

/-- The mutable objects visible to a `create_cert` call: the profile itself
and the `ca` and `csr` arguments.  The working extension mapping is created
inside the call and is not part of this state. -/
structure CreateCertState where
  profile : Profile
  ca : CertificateAuthority
  csr : CertificateSigningRequest

/-- The keyword arguments of `create_cert` (lines 171-186). -/
structure CreateCertParams where
  subject : Option Name
  expires : Option Nat
  algorithm : Option HashAlgorithm
  extensions : Option (List Extension)
  cn_in_san : Option Bool
  add_crl_url : Option Bool
  add_ocsp_url : Option Bool
  add_issuer_url : Option Bool
  add_issuer_alternative_name : Option Bool
  password : Option String

namespace Profile

/-- `Profile.create_cert` (lines 171-345).  `serial` stands for the drawn
`x509.random_serial_number()`, `now` for the current time, and `fmt` for the
URL-formatting context built by `_get_formatting_context` (external URL
reversing); all three are inputs here.  The `pre_sign_cert` signal notifies
external listeners and is not modelled.  Each raise site returns the state
as it stands; no statement of the source assigns to `self`, `ca` or `csr`,
so the state travels through unchanged. -/
def create_cert (s : CreateCertState) (p : CreateCertParams)
    (serial now : Nat) (fmt : String → String) :
    Except PyError Certificate × CreateCertState :=
  let profile := s.profile
  let cn_in_san := p.cn_in_san.getD profile.cn_in_san
  let add_crl_url := p.add_crl_url.getD profile.add_crl_url
  let add_ocsp_url := p.add_ocsp_url.getD profile.add_ocsp_url
  let add_issuer_url := p.add_issuer_url.getD profile.add_issuer_url
  let add_issuer_alternative_name :=
    p.add_issuer_alternative_name.getD profile.add_issuer_alternative_name
  let cert_extensions : ExtensionMapping :=
    match p.extensions with
    | none => ExtensionMapping.empty
    | some exts => exts.foldl (fun m e => m.set e.oid e) ExtensionMapping.empty
  let cert_extensions := get_extensions profile.extensions cert_extensions
  let cert_extensions := update_from_ca s.ca cert_extensions
    add_crl_url add_ocsp_url add_issuer_url add_issuer_alternative_name
  let subject : Option Name :=
    match profile.subject with
    | .falseValue => p.subject
    | .noneValue => p.subject
    | .nameValue profSubject =>
      match p.subject with
      | some subj => some (merge_x509_names profSubject subj)
      | none => some profSubject
  let subject := update_cn_from_san subject cert_extensions
  match subject with
  | none => (.error (.valueError "Cannot determine subject for certificate."), s)
  | some subject1 =>
    let subject2 := sort_name subject1
    let algorithm := resolve_algorithm p.algorithm profile.algorithm s.ca.algorithm
    let expires := get_expires profile.expires p.expires now
    match update_san_from_cn cn_in_san subject2 cert_extensions with
    | .error e => (.error e, s)
    | .ok cert_extensions1 =>
      match cn_san_check subject2 cert_extensions1 with
      | .error e => (.error e, s)
      | .ok _ =>
        let cert_extensions2 := format_extensions fmt cert_extensions1
        let public_key := s.csr.public_key
        let cert_extensions3 :=
          if (cert_extensions2 ExtensionOID.SUBJECT_KEY_IDENTIFIER).isNone then
            cert_extensions2.set ExtensionOID.SUBJECT_KEY_IDENTIFIER
              (subject_key_identifier_from_public_key public_key)
          else cert_extensions2
        (.ok
          { serial := serial
            issuer := s.ca.subject
            subject := subject2
            public_key := public_key
            not_after := expires
            algorithm := algorithm
            extensions := cert_extensions3 }, s)

end Profile

/-! ### Concrete fixtures -/

/-- A minimal CA fixture: no propagated extensions, SHA-256 signing. -/
def caFixture : CertificateAuthority :=
  { subject := [(NameOID.COUNTRY_NAME, "AT"), (NameOID.COMMON_NAME, "ca.example.com")]
    algorithm := some ⟨"SHA256", 0⟩
    extensions_for_certificate := ExtensionMapping.empty
    authority_key_identifier_extension :=
      ⟨ExtensionOID.AUTHORITY_KEY_IDENTIFIER, false, .authorityKeyIdentifier "ca-key-id"⟩
    private_key := 17 }

/-- A CSR fixture. -/
def csrFixture : CertificateSigningRequest := { public_key := 5 }

/-- `create_cert` keyword arguments all left at their defaults. -/
def emptyParams : CreateCertParams :=
  { subject := none
    expires := none
    algorithm := none
    extensions := none
    cn_in_san := none
    add_crl_url := none
    add_ocsp_url := none
    add_issuer_url := none
    add_issuer_alternative_name := none
    password := none }

/-- A profile whose extensions dict maps SubjectKeyIdentifier to `None`
(force-absent) on top of the usual BasicConstraints default, with a subject
naming `example.com`. -/
def profileSuppressingSki : Profile :=
  { name := "suppress-ski"
    subject := .nameValue [(NameOID.COMMON_NAME, "example.com")]
    algorithm := none
    extensions :=
      [(ExtensionOID.SUBJECT_KEY_IDENTIFIER, none),
       (ExtensionOID.BASIC_CONSTRAINTS, some defaultBasicConstraints)]
    cn_in_san := true
    expires := 365
    add_crl_url := true
    add_issuer_url := true
    add_ocsp_url := true
    add_issuer_alternative_name := true
    description := ""
    autogenerated := false }

/-- A caller-supplied SubjectKeyIdentifier extension. -/
def callerSkiExtension : Extension :=
  ⟨ExtensionOID.SUBJECT_KEY_IDENTIFIER, false, .subjectKeyIdentifier "caller-supplied"⟩

/-- A caller-supplied BasicConstraints extension that differs from the
profile default. -/
def callerBcExtension : Extension :=
  ⟨ExtensionOID.BASIC_CONSTRAINTS, false, .basicConstraints false (some 3)⟩

/-- A profile with subject `/C=AT` and only the BasicConstraints default,
as in the spec's CN/SAN-failure scenario. -/
def profileCountryOnly : Profile :=
  { name := "p"
    subject := .nameValue [(NameOID.COUNTRY_NAME, "AT")]
    algorithm := none
    extensions := [(ExtensionOID.BASIC_CONSTRAINTS, some defaultBasicConstraints)]
    cn_in_san := true
    expires := 365
    add_crl_url := true
    add_issuer_url := true
    add_ocsp_url := true
    add_issuer_alternative_name := true
    description := ""
    autogenerated := false }

/-- A caller-supplied SubjectAlternativeName extension naming
`example.com`. -/
def callerSanExtension : Extension :=
  ⟨ExtensionOID.SUBJECT_ALTERNATIVE_NAME, false,
   .subjectAlternativeName [.dns "example.com"]⟩

/-- A web-server profile configuration fixture. -/
def webserverProfileConfig : ProfileConfig :=
  { subject := .pairsArg [("C", "AT"), ("CN", "example.com")]
    algorithm := some "SHA-256"
    extensions := [("ocsp_no_check", .parsableValue none (.otherValue "null"))]
    cn_in_san := true
    expires := some 365
    description := "web server profile"
    autogenerated := false
    add_crl_url := true
    add_ocsp_url := true
    add_issuer_url := true
    add_issuer_alternative_name := true }

/-- A client profile configuration fixture that suppresses BasicConstraints
with an explicit `None`. -/
def clientProfileConfig : ProfileConfig :=
  { subject := .noneArg
    algorithm := none
    extensions := [("basic_constraints", .noneValue)]
    cn_in_san := false
    expires := none
    description := ""
    autogenerated := false
    add_crl_url := false
    add_ocsp_url := false
    add_issuer_url := false
    add_issuer_alternative_name := false }

/-- A two-profile configuration fixture for the registry claims. -/
def settingsFixture : Settings :=
  { CA_PROFILES :=
      [("webserver", webserverProfileConfig), ("client", clientProfileConfig)]
    CA_DEFAULT_PROFILE := "webserver"
    CA_DEFAULT_SUBJECT := none
    CA_DEFAULT_EXPIRES := 730 }

/-- A CA-side OCSP access description. -/
def caAiaOcspDescription : AccessDescription :=
  ⟨AuthorityInformationAccessOID.OCSP, "http://ocsp.example.com"⟩

/-- A CA-side CA-Issuers access description. -/
def caAiaIssuerDescription : AccessDescription :=
  ⟨AuthorityInformationAccessOID.CA_ISSUERS, "http://issuer.example.com"⟩

/-- A CA AIA extension holding a CA-Issuers and an OCSP description, in an
order that is not sorted by access-method OID. -/
def caAiaExtension : Extension :=
  ⟨ExtensionOID.AUTHORITY_INFORMATION_ACCESS, false,
   .authorityInformationAccess [caAiaIssuerDescription, caAiaOcspDescription]⟩

/-- CA extensions holding just the AIA fixture. -/
def camAiaFixture : ExtensionMapping :=
  ExtensionMapping.empty.set ExtensionOID.AUTHORITY_INFORMATION_ACCESS caAiaExtension

/-! Decomposition of the AIA merge of
`Profile._update_authority_information_access`, naming its intermediate
lists so their properties can be stated and proved separately.  The
equivalence with the function itself is `update_aia_eq` below. -/

/-- The access descriptions the working AIA starts from. -/
def aiaDs0 (m : ExtensionMapping) : List AccessDescription :=
  Profile.workingAiaDescriptions m

/-- The working descriptions after the CA-Issuers merge step. -/
def aiaDs1 (m : ExtensionMapping) (caExt : Extension) (iss : Bool) :
    List AccessDescription :=
  if iss = true && (aiaDs0 m).any
      (fun ad => ad.access_method = AuthorityInformationAccessOID.CA_ISSUERS) = false then
    aiaDs0 m ++ caExt.aiaDescriptions.filter
      (fun ad => !(decide (ad ∈ aiaDs0 m)) &&
        decide (ad.access_method = AuthorityInformationAccessOID.CA_ISSUERS))
  else aiaDs0 m

/-- The working descriptions after the OCSP merge step. -/
def aiaDs2 (m : ExtensionMapping) (caExt : Extension) (iss ocsp : Bool) :
    List AccessDescription :=
  if ocsp = true && (aiaDs0 m).any
      (fun ad => ad.access_method = AuthorityInformationAccessOID.OCSP) = false then
    aiaDs1 m caExt iss ++ caExt.aiaDescriptions.filter
      (fun ad => !(decide (ad ∈ aiaDs1 m caExt iss)) &&
        decide (ad.access_method = AuthorityInformationAccessOID.OCSP))
  else aiaDs1 m caExt iss

/-- The final, sorted access-description list. -/
def aiaSorted (m : ExtensionMapping) (caExt : Extension) (iss ocsp : Bool) :
    List AccessDescription :=
  List.insertionSort (fun a b => stringLe a.access_method b.access_method = true)
    (aiaDs2 m caExt iss ocsp)

/-- The critical flag used for the merged AIA extension: the working
extension's if present, else the CA extension's. -/
def aiaCritical (m : ExtensionMapping) (caExt : Extension) : Bool :=
  match m ExtensionOID.AUTHORITY_INFORMATION_ACCESS with
  | none => caExt.critical
  | some cert_aia_ext => cert_aia_ext.critical

/-- The mapping produced by the AIA merge when the CA has the AIA
extension `caExt`. -/
def aiaMergeResult (m : ExtensionMapping) (caExt : Extension) (iss ocsp : Bool) :
    ExtensionMapping :=
  if (aiaSorted m caExt iss ocsp).isEmpty then m
  else
    m.set ExtensionOID.AUTHORITY_INFORMATION_ACCESS
      ⟨ExtensionOID.AUTHORITY_INFORMATION_ACCESS, aiaCritical m caExt,
       .authorityInformationAccess (aiaSorted m caExt iss ocsp)⟩

/-! ## Helper lemmas -/

theorem charListLe_total : ∀ as bs : List Char,
    charListLe as bs = true ∨ charListLe bs as = true
  | [], _ => by left; rfl
  | _ :: _, [] => by right; rfl
  | a :: as, b :: bs => by
    by_cases hab : a.toNat < b.toNat
    · left
      simp [charListLe, hab]
    · by_cases hba : b.toNat < a.toNat
      · right
        simp [charListLe, hba]
      · rcases charListLe_total as bs with h | h
        · left
          simp [charListLe, hab, hba, h]
        · right
          simp [charListLe, hba, hab, h]

theorem charListLe_trans : ∀ as bs cs : List Char,
    charListLe as bs = true → charListLe bs cs = true → charListLe as cs = true
  | [], _, _ => by intro _ _; rfl
  | a :: as, [], cs => by intro h _; exact absurd h (by simp [charListLe])
  | a :: as, b :: bs, [] => by intro _ h; exact absurd h (by simp [charListLe])
  | a :: as, b :: bs, c :: cs => by
    intro hab hbc
    simp only [charListLe] at hab hbc ⊢
    by_cases h1 : a.toNat < b.toNat
    · by_cases h2 : b.toNat < c.toNat
      · have h3 : a.toNat < c.toNat := by omega
        simp [h3]
      · by_cases h4 : c.toNat < b.toNat
        · simp [h2, h4] at hbc
        · have h3 : a.toNat < c.toNat := by omega
          simp [h3]
    · by_cases h5 : b.toNat < a.toNat
      · simp [h1, h5] at hab
      · simp [h1, h5] at hab
        by_cases h2 : b.toNat < c.toNat
        · have h3 : a.toNat < c.toNat := by omega
          simp [h3]
        · by_cases h4 : c.toNat < b.toNat
          · simp [h2, h4] at hbc
          · simp [h2, h4] at hbc
            have h3 : ¬ a.toNat < c.toNat := by omega
            have h6 : ¬ c.toNat < a.toNat := by omega
            simp [h3, h6]
            exact charListLe_trans as bs cs hab hbc

theorem stringLe_total (a b : String) :
    stringLe a b = true ∨ stringLe b a = true :=
  charListLe_total a.data b.data

theorem stringLe_trans (a b c : String) (h1 : stringLe a b = true)
    (h2 : stringLe b c = true) : stringLe a c = true :=
  charListLe_trans a.data b.data c.data h1 h2

theorem get_extensions_nil (m : ExtensionMapping) :
    Profile.get_extensions [] m = m := rfl

theorem get_extensions_cons (p : String × Option Extension)
    (l : List (String × Option Extension)) (m : ExtensionMapping) :
    Profile.get_extensions (p :: l) m =
      Profile.get_extensions l
        (match p.2 with
         | none => m.pop p.1
         | some e => m.setdefault p.1 e) := rfl

theorem get_extensions_append (a b : List (String × Option Extension))
    (m : ExtensionMapping) :
    Profile.get_extensions (a ++ b) m =
      Profile.get_extensions b (Profile.get_extensions a m) := by
  simp [Profile.get_extensions, List.foldl_append]

theorem get_extensions_apply_notMem (l : List (String × Option Extension))
    (m : ExtensionMapping) (oid : String) (h : oid ∉ l.map Prod.fst) :
    Profile.get_extensions l m oid = m oid := by
  induction l generalizing m with
  | nil => rfl
  | cons p rest ih =>
    simp only [List.map_cons, List.mem_cons, not_or] at h
    rw [get_extensions_cons, ih _ h.2]
    cases hp : p.2 with
    | none => simp [ExtensionMapping.pop, h.1]
    | some e => simp [ExtensionMapping.setdefault, h.1]

/-- C1 as stated is false: a profile whose extensions map
SubjectKeyIdentifier to `None` does remove the caller-supplied
SubjectKeyIdentifier from the working mapping at the overlay step, yet the
issued certificate still carries a SubjectKeyIdentifier extension, because
the builder derives one from the public key whenever the working mapping
holds none (profiles.py lines 340-343). -/
theorem none_suppressed_extension_reappears_counterexample :
    Profile.get_extensions profileSuppressingSki.extensions
        (ExtensionMapping.empty.set ExtensionOID.SUBJECT_KEY_IDENTIFIER callerSkiExtension)
        ExtensionOID.SUBJECT_KEY_IDENTIFIER = none ∧
    (match (Profile.create_cert ⟨profileSuppressingSki, caFixture, csrFixture⟩
        { emptyParams with extensions := some [callerSkiExtension] } 1 0 id).1 with
     | .ok cert => cert.extensions ExtensionOID.SUBJECT_KEY_IDENTIFIER
     | .error _ => none) = some (subject_key_identifier_from_public_key 5) := by
  constructor <;> rfl

/-- C1 (amended): in `Profile._get_extensions`, every OID the profile's
stored extensions map to `None` is absent from the working mapping after
the overlay, even when the caller's extensions seeded an entry for it (the
issued certificate then carries no such extension unless a later step
derives that OID independently, as with the SubjectKeyIdentifier derived
from the public key); and every OID seeded from the caller and not mapped
to `None` by the profile keeps the caller's extension — the profile's own
value never overwrites it (`setdefault`). -/
theorem profile_overlay_none_and_setdefault
    (profExtensions : List (String × Option Extension)) (m : ExtensionMapping)
    (oid : String) (hnodup : (profExtensions.map Prod.fst).Nodup) :
    ((oid, none) ∈ profExtensions →
      Profile.get_extensions profExtensions m oid = none) ∧
    (∀ c : Extension, m oid = some c →
      (∀ x, (oid, x) ∈ profExtensions → x ≠ none) →
      Profile.get_extensions profExtensions m oid = some c) := by
  constructor
  · intro hmem
    obtain ⟨l1, l2, rfl⟩ := List.append_of_mem hmem
    have hnotmem : oid ∉ l2.map Prod.fst := by
      simp only [List.map_append, List.map_cons, List.nodup_append,
        List.nodup_cons] at hnodup
      exact hnodup.2.1.1
    rw [get_extensions_append, get_extensions_cons,
      get_extensions_apply_notMem _ _ _ hnotmem]
    simp [ExtensionMapping.pop]
  · intro c hc hnone
    clear hnodup
    have part2 : ∀ (l : List (String × Option Extension)) (m : ExtensionMapping),
        m oid = some c → (∀ x, (oid, x) ∈ l → x ≠ none) →
        Profile.get_extensions l m oid = some c := by
      intro l
      induction l with
      | nil => intro m hm _; exact hm
      | cons p rest ih =>
        intro m hm hnone
        rw [get_extensions_cons]
        cases hp : p.2 with
        | none =>
          have hne : oid ≠ p.1 := by
            intro he
            refine hnone none ?_ rfl
            have : (oid, (none : Option Extension)) = p := by
              rw [he, ← hp]
            rw [this]
            exact List.mem_cons_self p rest
          refine ih _ ?_ ?_
          · show (if oid = p.1 then none else m oid) = some c
            rw [if_neg hne]
            exact hm
          · intro x hx
            exact hnone x (List.mem_cons_of_mem _ hx)
        | some e =>
          refine ih _ ?_ ?_
          · show (if oid = p.1 then some ((m p.1).getD e) else m oid) = some c
            by_cases he : oid = p.1
            · rw [if_pos he, ← he, hm]
              rfl
            · rw [if_neg he]
              exact hm
          · intro x hx
            exact hnone x (List.mem_cons_of_mem _ hx)
    exact part2 profExtensions m hc hnone

/-- Witness for the amended C1: the `profileSuppressingSki` fixture pops a
caller-supplied SubjectKeyIdentifier and keeps a caller-supplied
BasicConstraints against the profile's own BasicConstraints default. -/
theorem profile_overlay_none_and_setdefault_witness :
    Profile.get_extensions profileSuppressingSki.extensions
        (ExtensionMapping.empty.set ExtensionOID.SUBJECT_KEY_IDENTIFIER callerSkiExtension)
        ExtensionOID.SUBJECT_KEY_IDENTIFIER = none ∧
    Profile.get_extensions profileSuppressingSki.extensions
        (ExtensionMapping.empty.set ExtensionOID.BASIC_CONSTRAINTS callerBcExtension)
        ExtensionOID.BASIC_CONSTRAINTS = some callerBcExtension := by
  constructor
  · exact (profile_overlay_none_and_setdefault profileSuppressingSki.extensions
      (ExtensionMapping.empty.set ExtensionOID.SUBJECT_KEY_IDENTIFIER callerSkiExtension)
      ExtensionOID.SUBJECT_KEY_IDENTIFIER (by decide)).1 (by decide)
  · refine (profile_overlay_none_and_setdefault profileSuppressingSki.extensions
      (ExtensionMapping.empty.set ExtensionOID.BASIC_CONSTRAINTS callerBcExtension)
      ExtensionOID.BASIC_CONSTRAINTS (by decide)).2 callerBcExtension (by rfl) ?_
    intro x hx
    rcases List.mem_cons.mp hx with h | h
    · have h1 : ExtensionOID.BASIC_CONSTRAINTS = ExtensionOID.SUBJECT_KEY_IDENTIFIER :=
        congrArg Prod.fst h
      exact absurd h1 (by decide)
    · rcases List.mem_cons.mp h with h2 | h2
      · have hx2 : x = some defaultBasicConstraints := congrArg Prod.snd h2
        rw [hx2]
        simp
      · exact absurd h2 (List.not_mem_nil _)

/-- C2: `create_cert` fails with the `ValueError` "Must name at least a CN
or a subjectAlternativeName" exactly when, after subject resolution and the
`cn_in_san` step, the final subject has no CommonName attribute and the
working mapping holds no SubjectAlternativeName entry; otherwise the check
passes.  Concretely: a profile with subject `/C=AT` and no SAN fails, while
supplying either a CommonName or a SubjectAlternativeName extension makes
issuance succeed. -/
theorem create_cert_cn_san_requirement :
    (∀ (subject : Name) (m : ExtensionMapping),
      Profile.cn_san_check subject m =
        if get_attributes_for_oid subject NameOID.COMMON_NAME = [] ∧
            m ExtensionOID.SUBJECT_ALTERNATIVE_NAME = none then
          .error (.valueError "Must name at least a CN or a subjectAlternativeName.")
        else .ok ()) ∧
    (Profile.create_cert ⟨profileCountryOnly, caFixture, csrFixture⟩
        emptyParams 1 0 id).1 =
      .error (.valueError "Must name at least a CN or a subjectAlternativeName.") ∧
    (Profile.create_cert ⟨profileCountryOnly, caFixture, csrFixture⟩
        { emptyParams with subject := some [(NameOID.COMMON_NAME, "example.com")] }
        1 0 id).1.isOk = true ∧
    (Profile.create_cert ⟨profileCountryOnly, caFixture, csrFixture⟩
        { emptyParams with extensions := some [callerSanExtension] }
        1 0 id).1.isOk = true := by
  refine ⟨?_, by rfl, by rfl, by rfl⟩
  intro subject m
  by_cases h1 : get_attributes_for_oid subject NameOID.COMMON_NAME = [] <;>
    by_cases h2 : m ExtensionOID.SUBJECT_ALTERNATIVE_NAME = none <;>
    simp [Profile.cn_san_check, h1, h2]

theorem update_san_from_cn_reduce (subject : Name) (m : ExtensionMapping)
    (attr : String × String) (rest : List (String × String))
    (hcn : get_attributes_for_oid subject NameOID.COMMON_NAME = attr :: rest) :
    Profile.update_san_from_cn true subject m =
      match parse_general_name attr.2 with
      | .error _ =>
        .error (.valueError
          (attr.2 ++ ": Could not parse CommonName as subjectAlternativeName."))
      | .ok common_name =>
        match m ExtensionOID.SUBJECT_ALTERNATIVE_NAME with
        | some san_ext =>
          if common_name ∈ san_ext.sanNames then .ok m
          else
            .ok (m.set ExtensionOID.SUBJECT_ALTERNATIVE_NAME
              ⟨ExtensionOID.SUBJECT_ALTERNATIVE_NAME, san_ext.critical,
               .subjectAlternativeName (san_ext.sanNames ++ [common_name])⟩)
        | none =>
          .ok (m.set ExtensionOID.SUBJECT_ALTERNATIVE_NAME
            ⟨ExtensionOID.SUBJECT_ALTERNATIVE_NAME, false,
             .subjectAlternativeName [common_name]⟩) := by
  unfold Profile.update_san_from_cn
  rw [hcn]
  rfl

/-- C3: in `Profile._update_san_from_cn` with `cn_in_san` resolved true and
a CommonName present, the CommonName is parsed as a general name (an
unparsable one raises the wrapping `ValueError`); with a SAN extension
present the parsed name is appended only when not already a member (so a
caller-supplied SAN already holding it is returned unchanged), and with no
SAN extension a fresh non-critical SAN holding exactly that value is
created. -/
theorem update_san_from_cn_spec (subject : Name) (m : ExtensionMapping)
    (attr : String × String) (rest : List (String × String))
    (hcn : get_attributes_for_oid subject NameOID.COMMON_NAME = attr :: rest) :
    (∀ msg, parse_general_name attr.2 = .error msg →
      Profile.update_san_from_cn true subject m =
        .error (.valueError
          (attr.2 ++ ": Could not parse CommonName as subjectAlternativeName."))) ∧
    (∀ (gn : GeneralName) (ext : Extension) (ns : List GeneralName),
      parse_general_name attr.2 = .ok gn →
      m ExtensionOID.SUBJECT_ALTERNATIVE_NAME = some ext →
      ext.value = .subjectAlternativeName ns →
      Profile.update_san_from_cn true subject m =
        .ok (if gn ∈ ns then m
          else m.set ExtensionOID.SUBJECT_ALTERNATIVE_NAME
            ⟨ExtensionOID.SUBJECT_ALTERNATIVE_NAME, ext.critical,
             .subjectAlternativeName (ns ++ [gn])⟩)) ∧
    (∀ gn : GeneralName, parse_general_name attr.2 = .ok gn →
      m ExtensionOID.SUBJECT_ALTERNATIVE_NAME = none →
      Profile.update_san_from_cn true subject m =
        .ok (m.set ExtensionOID.SUBJECT_ALTERNATIVE_NAME
          ⟨ExtensionOID.SUBJECT_ALTERNATIVE_NAME, false,
           .subjectAlternativeName [gn]⟩)) := by
  refine ⟨?_, ?_, ?_⟩
  · intro msg hparse
    rw [update_san_from_cn_reduce subject m attr rest hcn, hparse]
  · intro gn ext ns hparse hsan hval
    obtain ⟨o, c, v⟩ := ext
    cases hval
    rw [update_san_from_cn_reduce subject m attr rest hcn, hparse, hsan]
    by_cases hmem : gn ∈ ns <;> simp [Extension.sanNames, hmem]
  · intro gn hparse hsan
    rw [update_san_from_cn_reduce subject m attr rest hcn, hparse, hsan]

/-- Witness for C3: with subject CN `example.com` and a caller-supplied SAN
already naming `DNS:example.com`, the mapping is returned unchanged — the
SAN still holds exactly one entry for that name. -/
theorem update_san_from_cn_spec_witness :
    Profile.update_san_from_cn true [(NameOID.COMMON_NAME, "example.com")]
        (ExtensionMapping.empty.set ExtensionOID.SUBJECT_ALTERNATIVE_NAME
          callerSanExtension) =
      .ok (ExtensionMapping.empty.set ExtensionOID.SUBJECT_ALTERNATIVE_NAME
        callerSanExtension) := by
  have h := (update_san_from_cn_spec [(NameOID.COMMON_NAME, "example.com")]
      (ExtensionMapping.empty.set ExtensionOID.SUBJECT_ALTERNATIVE_NAME
        callerSanExtension)
      (NameOID.COMMON_NAME, "example.com") [] (by rfl)).2.1
      (.dns "example.com") callerSanExtension [.dns "example.com"]
      (by rfl) (by rfl) (by rfl)
  simpa using h

/-- C5 as stated is false: with no explicit algorithm, a stored profile
algorithm, and a CA whose `algorithm` is `None` (as for Ed25519/Ed448 CAs),
`create_cert` resolves no algorithm at all — the fallback chain only runs
under `if algorithm is None and ca.algorithm:` — while the claimed chain
"explicit, else profile, else CA" would pick the profile's algorithm. -/
theorem resolve_algorithm_counterexample :
    Profile.resolve_algorithm none (some ⟨"SHA256", 0⟩) none = none ∧
    Profile.spec_resolve_algorithm none (some ⟨"SHA256", 0⟩) none =
      some ⟨"SHA256", 0⟩ ∧
    Profile.resolve_algorithm none (some ⟨"SHA256", 0⟩) none ≠
      Profile.spec_resolve_algorithm none (some ⟨"SHA256", 0⟩) none := by
  refine ⟨rfl, rfl, by decide⟩

/-- C5 (amended): the signing algorithm resolves to the explicit parameter
if one was given; otherwise, when the CA has an algorithm, to the Profile's
stored algorithm if set and else the CA's own algorithm; when no explicit
parameter is given and the CA has no algorithm, no algorithm is resolved. -/
theorem resolve_algorithm_amended (a p c : Option HashAlgorithm) :
    Profile.resolve_algorithm a p c =
      match a, c with
      | some x, _ => some x
      | none, none => none
      | none, some y =>
        match p with
        | some q => some q
        | none => some y := by
  cases a <;> cases c <;> cases p <;> rfl

theorem add_crl_distribution_points_apply_ne (m cam : ExtensionMapping)
    (o : String) (h : o ≠ ExtensionOID.CRL_DISTRIBUTION_POINTS) :
    Profile.add_crl_distribution_points m cam o = m o := by
  unfold Profile.add_crl_distribution_points
  rcases hca : cam ExtensionOID.CRL_DISTRIBUTION_POINTS with _ | caExt <;>
    rcases hm : m ExtensionOID.CRL_DISTRIBUTION_POINTS with _ | e <;>
    simp [hca, hm, ExtensionMapping.set, h]

theorem add_crl_distribution_points_apply_self (m cam : ExtensionMapping) :
    Profile.add_crl_distribution_points m cam ExtensionOID.CRL_DISTRIBUTION_POINTS =
      if m ExtensionOID.CRL_DISTRIBUTION_POINTS = none ∧
          (cam ExtensionOID.CRL_DISTRIBUTION_POINTS).isSome = true then
        cam ExtensionOID.CRL_DISTRIBUTION_POINTS
      else m ExtensionOID.CRL_DISTRIBUTION_POINTS := by
  unfold Profile.add_crl_distribution_points
  rcases hca : cam ExtensionOID.CRL_DISTRIBUTION_POINTS with _ | caExt <;>
    rcases hm : m ExtensionOID.CRL_DISTRIBUTION_POINTS with _ | e <;>
    simp [hca, hm, ExtensionMapping.set]

theorem update_issuer_alternative_name_apply_ne (m cam : ExtensionMapping)
    (o : String) (h : o ≠ ExtensionOID.ISSUER_ALTERNATIVE_NAME) :
    Profile.update_issuer_alternative_name m cam o = m o := by
  unfold Profile.update_issuer_alternative_name
  rcases hca : cam ExtensionOID.ISSUER_ALTERNATIVE_NAME with _ | caExt <;>
    rcases hm : m ExtensionOID.ISSUER_ALTERNATIVE_NAME with _ | e <;>
    simp [hca, hm, ExtensionMapping.set, h]

theorem update_issuer_alternative_name_apply_self (m cam : ExtensionMapping) :
    Profile.update_issuer_alternative_name m cam ExtensionOID.ISSUER_ALTERNATIVE_NAME =
      if m ExtensionOID.ISSUER_ALTERNATIVE_NAME = none ∧
          (cam ExtensionOID.ISSUER_ALTERNATIVE_NAME).isSome = true then
        cam ExtensionOID.ISSUER_ALTERNATIVE_NAME
      else m ExtensionOID.ISSUER_ALTERNATIVE_NAME := by
  unfold Profile.update_issuer_alternative_name
  rcases hca : cam ExtensionOID.ISSUER_ALTERNATIVE_NAME with _ | caExt <;>
    rcases hm : m ExtensionOID.ISSUER_ALTERNATIVE_NAME with _ | e <;>
    simp [hca, hm, ExtensionMapping.set]

theorem update_authority_information_access_apply_ne (m cam : ExtensionMapping)
    (iss ocsp : Bool) (o : String)
    (h : o ≠ ExtensionOID.AUTHORITY_INFORMATION_ACCESS) :
    Profile.update_authority_information_access m cam iss ocsp o = m o := by
  unfold Profile.update_authority_information_access
  rcases hca : cam ExtensionOID.AUTHORITY_INFORMATION_ACCESS with _ | caExt
  · simp [hca]
  · simp only [hca]
    rw [apply_ite (fun g : ExtensionMapping => g o)]
    simp [ExtensionMapping.set, h]

theorem setdefault_apply_ne (m : ExtensionMapping) (oid o : String)
    (e : Extension) (h : o ≠ oid) : m.setdefault oid e o = m o := by
  simp [ExtensionMapping.setdefault, h]

/-- C6: in `Profile._update_from_ca`, the AuthorityKeyIdentifier from the
CA is always `setdefault`ed (a caller-supplied AKI is never overridden),
the CA's CRLDistributionPoints is copied verbatim exactly when
`add_crl_url` holds, the working mapping has none yet and the CA has one,
and the CA's IssuerAlternativeName is copied exactly when
`add_issuer_alternative_name` is not `False`, the CA has one and the
working mapping has none yet. -/
theorem update_from_ca_spec (ca : CertificateAuthority) (m : ExtensionMapping)
    (add_crl_url add_ocsp_url add_issuer_url add_issuer_alternative_name : Bool) :
    (Profile.update_from_ca ca m add_crl_url add_ocsp_url add_issuer_url
        add_issuer_alternative_name ExtensionOID.AUTHORITY_KEY_IDENTIFIER =
      some ((m ExtensionOID.AUTHORITY_KEY_IDENTIFIER).getD
        ca.authority_key_identifier_extension)) ∧
    (Profile.update_from_ca ca m add_crl_url add_ocsp_url add_issuer_url
        add_issuer_alternative_name ExtensionOID.CRL_DISTRIBUTION_POINTS =
      if add_crl_url = true ∧
          m ExtensionOID.CRL_DISTRIBUTION_POINTS = none ∧
          (ca.extensions_for_certificate
            ExtensionOID.CRL_DISTRIBUTION_POINTS).isSome = true then
        ca.extensions_for_certificate ExtensionOID.CRL_DISTRIBUTION_POINTS
      else m ExtensionOID.CRL_DISTRIBUTION_POINTS) ∧
    (Profile.update_from_ca ca m add_crl_url add_ocsp_url add_issuer_url
        add_issuer_alternative_name ExtensionOID.ISSUER_ALTERNATIVE_NAME =
      if add_issuer_alternative_name = true ∧
          m ExtensionOID.ISSUER_ALTERNATIVE_NAME = none ∧
          (ca.extensions_for_certificate
            ExtensionOID.ISSUER_ALTERNATIVE_NAME).isSome = true then
        ca.extensions_for_certificate ExtensionOID.ISSUER_ALTERNATIVE_NAME
      else m ExtensionOID.ISSUER_ALTERNATIVE_NAME) := by
  unfold Profile.update_from_ca
  refine ⟨?_, ?_, ?_⟩
  · rw [show ∀ m2 : ExtensionMapping,
        (if add_issuer_alternative_name then
          Profile.update_issuer_alternative_name m2 ca.extensions_for_certificate
        else m2) ExtensionOID.AUTHORITY_KEY_IDENTIFIER =
          m2 ExtensionOID.AUTHORITY_KEY_IDENTIFIER from ?_]
    · rw [update_authority_information_access_apply_ne _ _ _ _ _ (by decide)]
      cases add_crl_url with
      | true =>
        rw [if_pos rfl, add_crl_distribution_points_apply_ne _ _ _ (by decide)]
        simp [ExtensionMapping.setdefault]
      | false =>
        rw [if_neg (by simp)]
        simp [ExtensionMapping.setdefault]
    · intro m2
      cases add_issuer_alternative_name with
      | true =>
        rw [if_pos rfl, update_issuer_alternative_name_apply_ne _ _ _ (by decide)]
      | false => rw [if_neg (by simp)]
  · rw [show ∀ m2 : ExtensionMapping,
        (if add_issuer_alternative_name then
          Profile.update_issuer_alternative_name m2 ca.extensions_for_certificate
        else m2) ExtensionOID.CRL_DISTRIBUTION_POINTS =
          m2 ExtensionOID.CRL_DISTRIBUTION_POINTS from ?_]
    · rw [update_authority_information_access_apply_ne _ _ _ _ _ (by decide)]
      cases add_crl_url with
      | true =>
        rw [if_pos rfl, add_crl_distribution_points_apply_self]
        rw [setdefault_apply_ne _ _ _ _ (by decide)]
        simp
      | false =>
        rw [if_neg (by simp), setdefault_apply_ne _ _ _ _ (by decide)]
        simp
    · intro m2
      cases add_issuer_alternative_name with
      | true =>
        rw [if_pos rfl, update_issuer_alternative_name_apply_ne _ _ _ (by decide)]
      | false => rw [if_neg (by simp)]
  · cases add_issuer_alternative_name with
    | true =>
      rw [if_pos rfl, update_issuer_alternative_name_apply_self]
      rw [update_authority_information_access_apply_ne _ _ _ _ _ (by decide)]
      have hcrl : (if add_crl_url then
          Profile.add_crl_distribution_points
            (m.setdefault ExtensionOID.AUTHORITY_KEY_IDENTIFIER
              ca.authority_key_identifier_extension) ca.extensions_for_certificate
        else
          m.setdefault ExtensionOID.AUTHORITY_KEY_IDENTIFIER
            ca.authority_key_identifier_extension)
          ExtensionOID.ISSUER_ALTERNATIVE_NAME =
          m ExtensionOID.ISSUER_ALTERNATIVE_NAME := by
        cases add_crl_url with
        | true =>
          rw [if_pos rfl, add_crl_distribution_points_apply_ne _ _ _ (by decide)]
          exact setdefault_apply_ne _ _ _ _ (by decide)
        | false =>
          rw [if_neg (by simp)]
          exact setdefault_apply_ne _ _ _ _ (by decide)
      rw [hcrl]
      simp
    | false =>
      rw [if_neg (by simp)]
      rw [update_authority_information_access_apply_ne _ _ _ _ _ (by decide)]
      have hcrl2 : (if add_crl_url then
          Profile.add_crl_distribution_points
            (m.setdefault ExtensionOID.AUTHORITY_KEY_IDENTIFIER
              ca.authority_key_identifier_extension) ca.extensions_for_certificate
        else
          m.setdefault ExtensionOID.AUTHORITY_KEY_IDENTIFIER
            ca.authority_key_identifier_extension)
          ExtensionOID.ISSUER_ALTERNATIVE_NAME =
          m ExtensionOID.ISSUER_ALTERNATIVE_NAME := by
        cases add_crl_url with
        | true =>
          rw [if_pos rfl, add_crl_distribution_points_apply_ne _ _ _ (by decide)]
          exact setdefault_apply_ne _ _ _ _ (by decide)
        | false =>
          rw [if_neg (by simp)]
          exact setdefault_apply_ne _ _ _ _ (by decide)
      rw [hcrl2]
      simp

theorem update_aia_eq (m cam : ExtensionMapping) (iss ocsp : Bool)
    (caExt : Extension)
    (hca : cam ExtensionOID.AUTHORITY_INFORMATION_ACCESS = some caExt) :
    Profile.update_authority_information_access m cam iss ocsp =
      aiaMergeResult m caExt iss ocsp := by
  unfold Profile.update_authority_information_access aiaMergeResult aiaSorted
    aiaDs2 aiaDs1 aiaDs0 aiaCritical Profile.workingAiaDescriptions
  rw [hca]
  rcases hm : m ExtensionOID.AUTHORITY_INFORMATION_ACCESS with _ | ce <;>
    (simp only [hm]; try rfl)

theorem aiaDs0_subset_aiaDs1 (m : ExtensionMapping) (caExt : Extension)
    (iss : Bool) (ad : AccessDescription) (h : ad ∈ aiaDs0 m) :
    ad ∈ aiaDs1 m caExt iss := by
  unfold aiaDs1
  split
  · exact List.mem_append_left _ h
  · exact h

theorem aiaDs1_subset_aiaDs2 (m : ExtensionMapping) (caExt : Extension)
    (iss ocsp : Bool) (ad : AccessDescription) (h : ad ∈ aiaDs1 m caExt iss) :
    ad ∈ aiaDs2 m caExt iss ocsp := by
  unfold aiaDs2
  split
  · exact List.mem_append_left _ h
  · exact h

theorem mem_aiaSorted (m : ExtensionMapping) (caExt : Extension)
    (iss ocsp : Bool) (ad : AccessDescription) :
    ad ∈ aiaSorted m caExt iss ocsp ↔ ad ∈ aiaDs2 m caExt iss ocsp := by
  unfold aiaSorted
  exact List.mem_insertionSort _

theorem aiaDs2_nil_of_sorted_nil (m : ExtensionMapping) (caExt : Extension)
    (iss ocsp : Bool) (h : (aiaSorted m caExt iss ocsp).isEmpty = true) :
    aiaDs2 m caExt iss ocsp = [] := by
  rw [List.isEmpty_iff] at h
  have hlen := (List.perm_insertionSort
    (fun a b => stringLe a.access_method b.access_method = true)
    (aiaDs2 m caExt iss ocsp)).length_eq
  rw [show List.insertionSort (fun a b => stringLe a.access_method b.access_method = true)
      (aiaDs2 m caExt iss ocsp) = aiaSorted m caExt iss ocsp from rfl, h] at hlen
  exact List.eq_nil_of_length_eq_zero hlen.symm

theorem aiaDs0_nil_of_ds2_nil (m : ExtensionMapping) (caExt : Extension)
    (iss ocsp : Bool) (h : aiaDs2 m caExt iss ocsp = []) : aiaDs0 m = [] := by
  have h1 : aiaDs1 m caExt iss = [] := by
    unfold aiaDs2 at h
    split at h
    · exact (List.append_eq_nil.mp h).1
    · exact h
  unfold aiaDs1 at h1
  split at h1
  · exact (List.append_eq_nil.mp h1).1
  · exact h1

theorem workingAia_aiaMergeResult (m : ExtensionMapping) (caExt : Extension)
    (iss ocsp : Bool) (ad : AccessDescription) :
    (ad ∈ Profile.workingAiaDescriptions (aiaMergeResult m caExt iss ocsp) ↔
      ad ∈ aiaDs2 m caExt iss ocsp) := by
  unfold aiaMergeResult
  by_cases hE : (aiaSorted m caExt iss ocsp).isEmpty = true
  · rw [if_pos hE]
    have h2 := aiaDs2_nil_of_sorted_nil m caExt iss ocsp hE
    have h0 := aiaDs0_nil_of_ds2_nil m caExt iss ocsp h2
    rw [h2]
    unfold aiaDs0 at h0
    rw [h0]
  · rw [if_neg hE]
    have : Profile.workingAiaDescriptions
        (m.set ExtensionOID.AUTHORITY_INFORMATION_ACCESS
          ⟨ExtensionOID.AUTHORITY_INFORMATION_ACCESS, aiaCritical m caExt,
           .authorityInformationAccess (aiaSorted m caExt iss ocsp)⟩) =
        aiaSorted m caExt iss ocsp := by
      unfold Profile.workingAiaDescriptions ExtensionMapping.set
      simp [Extension.aiaDescriptions]
    rw [this]
    exact mem_aiaSorted m caExt iss ocsp ad

theorem workingAia_set_aia (m : ExtensionMapping) (c : Bool)
    (ds : List AccessDescription) :
    Profile.workingAiaDescriptions
      (m.set ExtensionOID.AUTHORITY_INFORMATION_ACCESS
        ⟨ExtensionOID.AUTHORITY_INFORMATION_ACCESS, c,
         .authorityInformationAccess ds⟩) = ds := by
  unfold Profile.workingAiaDescriptions ExtensionMapping.set
  simp [Extension.aiaDescriptions]

theorem aia_issuer_added (m : ExtensionMapping) (caExt : Extension)
    (iss ocsp : Bool) (ad : AccessDescription) (hiss : iss = true)
    (hhas : (aiaDs0 m).any
      (fun ad => ad.access_method = AuthorityInformationAccessOID.CA_ISSUERS) = false)
    (had : ad ∈ caExt.aiaDescriptions)
    (hm : ad.access_method = AuthorityInformationAccessOID.CA_ISSUERS) :
    ad ∈ aiaDs2 m caExt iss ocsp := by
  apply aiaDs1_subset_aiaDs2
  unfold aiaDs1
  rw [if_pos (by simp [hiss, hhas])]
  by_cases h0 : ad ∈ aiaDs0 m
  · exact List.mem_append_left _ h0
  · refine List.mem_append_right _ ?_
    rw [List.mem_filter]
    exact ⟨had, by simp [h0, hm]⟩

theorem aia_issuer_not_added (m : ExtensionMapping) (caExt : Extension)
    (iss ocsp : Bool) (ad : AccessDescription)
    (h : ¬(iss = true ∧ (aiaDs0 m).any
      (fun ad => ad.access_method = AuthorityInformationAccessOID.CA_ISSUERS) = false))
    (had : ad ∈ aiaDs2 m caExt iss ocsp) :
    ad ∈ aiaDs0 m ∨
      (ad.access_method = AuthorityInformationAccessOID.OCSP ∧
        ad ∈ caExt.aiaDescriptions) := by
  have h1 : aiaDs1 m caExt iss = aiaDs0 m := by
    unfold aiaDs1
    rw [if_neg (by simpa using h)]
  unfold aiaDs2 at had
  rw [h1] at had
  split at had
  · rcases List.mem_append.mp had with h0 | hf
    · exact Or.inl h0
    · rw [List.mem_filter] at hf
      obtain ⟨hin, hp⟩ := hf
      refine Or.inr ⟨?_, hin⟩
      simp at hp
      exact hp.2
  · exact Or.inl had

theorem aia_ocsp_added (m : ExtensionMapping) (caExt : Extension)
    (iss ocsp : Bool) (ad : AccessDescription) (hocsp : ocsp = true)
    (hhas : (aiaDs0 m).any
      (fun ad => ad.access_method = AuthorityInformationAccessOID.OCSP) = false)
    (had : ad ∈ caExt.aiaDescriptions)
    (hm : ad.access_method = AuthorityInformationAccessOID.OCSP) :
    ad ∈ aiaDs2 m caExt iss ocsp := by
  unfold aiaDs2
  rw [if_pos (by simp [hocsp, hhas])]
  by_cases h1 : ad ∈ aiaDs1 m caExt iss
  · exact List.mem_append_left _ h1
  · refine List.mem_append_right _ ?_
    rw [List.mem_filter]
    exact ⟨had, by simp [h1, hm]⟩

theorem aia_ocsp_not_added (m : ExtensionMapping) (caExt : Extension)
    (iss ocsp : Bool) (ad : AccessDescription)
    (h : ¬(ocsp = true ∧ (aiaDs0 m).any
      (fun ad => ad.access_method = AuthorityInformationAccessOID.OCSP) = false))
    (had : ad ∈ aiaDs2 m caExt iss ocsp) :
    ad ∈ aiaDs0 m ∨
      (ad.access_method = AuthorityInformationAccessOID.CA_ISSUERS ∧
        ad ∈ caExt.aiaDescriptions) := by
  have h2 : aiaDs2 m caExt iss ocsp = aiaDs1 m caExt iss := by
    unfold aiaDs2
    rw [if_neg (by simpa using h)]
  rw [h2] at had
  unfold aiaDs1 at had
  split at had
  · rcases List.mem_append.mp had with h0 | hf
    · exact Or.inl h0
    · rw [List.mem_filter] at hf
      obtain ⟨hin, hp⟩ := hf
      refine Or.inr ⟨?_, hin⟩
      simp at hp
      exact hp.2
  · exact Or.inl had

theorem aiaSorted_pairwise (m : ExtensionMapping) (caExt : Extension)
    (iss ocsp : Bool) :
    List.Pairwise (fun a b => stringLe a.access_method b.access_method = true)
      (aiaSorted m caExt iss ocsp) := by
  unfold aiaSorted
  haveI : IsTotal AccessDescription
      (fun a b => stringLe a.access_method b.access_method = true) :=
    ⟨fun a b => stringLe_total a.access_method b.access_method⟩
  haveI : IsTrans AccessDescription
      (fun a b => stringLe a.access_method b.access_method = true) :=
    ⟨fun a b c h1 h2 => stringLe_trans _ _ _ h1 h2⟩
  exact List.sorted_insertionSort _ _

theorem aiaMergeResult_pairwise (m : ExtensionMapping) (caExt : Extension)
    (iss ocsp : Bool) :
    List.Pairwise (fun a b => stringLe a.access_method b.access_method = true)
      (Profile.workingAiaDescriptions (aiaMergeResult m caExt iss ocsp)) := by
  unfold aiaMergeResult
  by_cases hE : (aiaSorted m caExt iss ocsp).isEmpty = true
  · rw [if_pos hE]
    have h0 := aiaDs0_nil_of_ds2_nil m caExt iss ocsp
      (aiaDs2_nil_of_sorted_nil m caExt iss ocsp hE)
    unfold aiaDs0 at h0
    rw [h0]
    exact List.Pairwise.nil
  · rw [if_neg hE, workingAia_set_aia]
    exact aiaSorted_pairwise m caExt iss ocsp

/-- C4: the AIA merge of `create_cert`: with no CA AIA the working mapping
is unchanged; otherwise every existing working access description is
preserved, the CA's CA-Issuers descriptions are added exactly when
`add_issuer_url` holds and no CA-Issuers description is present yet, the
CA's OCSP descriptions exactly when `add_ocsp_url` holds and no OCSP
description is present yet, and the final access-description list is
sorted by the access-method OID's dotted string. -/
theorem update_authority_information_access_spec (m cam : ExtensionMapping)
    (add_issuer_url add_ocsp_url : Bool) :
    (cam ExtensionOID.AUTHORITY_INFORMATION_ACCESS = none →
      Profile.update_authority_information_access m cam add_issuer_url add_ocsp_url
        = m) ∧
    ∀ caExt : Extension,
      cam ExtensionOID.AUTHORITY_INFORMATION_ACCESS = some caExt →
      (∀ ad ∈ Profile.workingAiaDescriptions m,
        ad ∈ Profile.workingAiaDescriptions
          (Profile.update_authority_information_access m cam
            add_issuer_url add_ocsp_url)) ∧
      (add_issuer_url = true →
        (Profile.workingAiaDescriptions m).any
          (fun ad =>
            ad.access_method = AuthorityInformationAccessOID.CA_ISSUERS) = false →
        ∀ ad ∈ caExt.aiaDescriptions,
          ad.access_method = AuthorityInformationAccessOID.CA_ISSUERS →
          ad ∈ Profile.workingAiaDescriptions
            (Profile.update_authority_information_access m cam
              add_issuer_url add_ocsp_url)) ∧
      (¬(add_issuer_url = true ∧
          (Profile.workingAiaDescriptions m).any
            (fun ad =>
              ad.access_method = AuthorityInformationAccessOID.CA_ISSUERS) = false) →
        ∀ ad ∈ Profile.workingAiaDescriptions
          (Profile.update_authority_information_access m cam
            add_issuer_url add_ocsp_url),
          ad ∈ Profile.workingAiaDescriptions m ∨
            (ad.access_method = AuthorityInformationAccessOID.OCSP ∧
              ad ∈ caExt.aiaDescriptions)) ∧
      (add_ocsp_url = true →
        (Profile.workingAiaDescriptions m).any
          (fun ad =>
            ad.access_method = AuthorityInformationAccessOID.OCSP) = false →
        ∀ ad ∈ caExt.aiaDescriptions,
          ad.access_method = AuthorityInformationAccessOID.OCSP →
          ad ∈ Profile.workingAiaDescriptions
            (Profile.update_authority_information_access m cam
              add_issuer_url add_ocsp_url)) ∧
      (¬(add_ocsp_url = true ∧
          (Profile.workingAiaDescriptions m).any
            (fun ad =>
              ad.access_method = AuthorityInformationAccessOID.OCSP) = false) →
        ∀ ad ∈ Profile.workingAiaDescriptions
          (Profile.update_authority_information_access m cam
            add_issuer_url add_ocsp_url),
          ad ∈ Profile.workingAiaDescriptions m ∨
            (ad.access_method = AuthorityInformationAccessOID.CA_ISSUERS ∧
              ad ∈ caExt.aiaDescriptions)) ∧
      List.Pairwise (fun a b => stringLe a.access_method b.access_method = true)
        (Profile.workingAiaDescriptions
          (Profile.update_authority_information_access m cam
            add_issuer_url add_ocsp_url)) := by
  constructor
  · intro h
    unfold Profile.update_authority_information_access
    rw [h]
  · intro caExt hca
    rw [update_aia_eq m cam add_issuer_url add_ocsp_url caExt hca]
    refine ⟨?_, ?_, ?_, ?_, ?_, ?_⟩
    · intro ad had
      rw [workingAia_aiaMergeResult]
      exact aiaDs1_subset_aiaDs2 m caExt add_issuer_url add_ocsp_url ad
        (aiaDs0_subset_aiaDs1 m caExt add_issuer_url ad had)
    · intro hiss hhas ad had hmeth
      rw [workingAia_aiaMergeResult]
      exact aia_issuer_added m caExt add_issuer_url add_ocsp_url ad hiss hhas
        had hmeth
    · intro h ad had
      rw [workingAia_aiaMergeResult] at had
      exact aia_issuer_not_added m caExt add_issuer_url add_ocsp_url ad h had
    · intro hocsp hhas ad had hmeth
      rw [workingAia_aiaMergeResult]
      exact aia_ocsp_added m caExt add_issuer_url add_ocsp_url ad hocsp hhas
        had hmeth
    · intro h ad had
      rw [workingAia_aiaMergeResult] at had
      exact aia_ocsp_not_added m caExt add_issuer_url add_ocsp_url ad h had
    · exact aiaMergeResult_pairwise m caExt add_issuer_url add_ocsp_url

/-- Witness for C4 (the spec's AIA-merge scenario): the CA has AIA with a
CA-Issuers and an OCSP URL, both toggles hold, the caller supplies no AIA;
both CA descriptions end up in the result, which is sorted by access-method
OID. -/
theorem update_authority_information_access_spec_witness :
    caAiaIssuerDescription ∈ Profile.workingAiaDescriptions
      (Profile.update_authority_information_access ExtensionMapping.empty
        camAiaFixture true true) ∧
    caAiaOcspDescription ∈ Profile.workingAiaDescriptions
      (Profile.update_authority_information_access ExtensionMapping.empty
        camAiaFixture true true) ∧
    List.Pairwise (fun a b => stringLe a.access_method b.access_method = true)
      (Profile.workingAiaDescriptions
        (Profile.update_authority_information_access ExtensionMapping.empty
          camAiaFixture true true)) := by
  have h := (update_authority_information_access_spec ExtensionMapping.empty
    camAiaFixture true true).2 caAiaExtension (by rfl)
  refine ⟨?_, ?_, h.2.2.2.2.2⟩
  · exact h.2.1 rfl (by rfl) caAiaIssuerDescription (by decide) (by rfl)
  · exact h.2.2.2.1 rfl (by rfl) caAiaOcspDescription (by decide) (by rfl)

theorem any_key_eq_isSome {α : Type} (l : List (String × α)) (k : String) :
    l.any (fun p => p.1 = k) = (lookupKey l k).isSome := by
  induction l with
  | nil => rfl
  | cons p rest ih =>
    by_cases hp : p.1 = k
    · simp [lookupKey, hp]
    · simp only [List.any_cons, lookupKey]
      simp [hp]
      exact ih

theorem lookup_map_set_ne {α : Type} (l : List (String × α)) (k k' : String)
    (v : α) (h : k' ≠ k) :
    lookupKey (l.map (fun p => if p.1 = k then (k, v) else p)) k' =
      lookupKey l k' := by
  induction l with
  | nil => rfl
  | cons p rest ih =>
    by_cases hp : p.1 = k
    · have hk' : ¬((k : String) = k') := fun he => h he.symm
      have hp' : ¬(p.1 = k') := by rw [hp]; exact fun he => h he.symm
      simp only [List.map_cons, lookupKey, if_pos hp]
      simp [hk', hp']
      exact ih
    · by_cases hpk : p.1 = k'
      · simp only [List.map_cons, lookupKey, if_neg hp]
        simp [hpk]
      · simp only [List.map_cons, lookupKey, if_neg hp]
        simp [hpk]
        exact ih

theorem lookup_map_set_self_of_any {α : Type} (l : List (String × α))
    (k : String) (v : α) (h : l.any (fun p => p.1 = k) = true) :
    lookupKey (l.map (fun p => if p.1 = k then (k, v) else p)) k = some v := by
  induction l with
  | nil => simp at h
  | cons p rest ih =>
    by_cases hp : p.1 = k
    · simp [lookupKey, hp]
    · simp only [List.any_cons] at h
      rw [show (decide (p.1 = k)) = false by simp [hp]] at h
      simp only [Bool.false_or] at h
      simp only [List.map_cons, lookupKey]
      simp [hp]
      exact ih h

theorem lookup_append {α : Type} (l1 l2 : List (String × α)) (k : String) :
    lookupKey (l1 ++ l2) k = (lookupKey l1 k).or (lookupKey l2 k) := by
  induction l1 with
  | nil => rfl
  | cons p rest ih =>
    by_cases hp : p.1 = k
    · simp [lookupKey, hp]
    · simp [lookupKey, hp]
      exact ih

theorem lookupKey_dictSet {α : Type} (l : List (String × α)) (k k' : String)
    (v : α) :
    lookupKey (dictSet l k v) k' = if k' = k then some v else lookupKey l k' := by
  unfold dictSet
  by_cases hany : l.any (fun p => p.1 = k) = true
  · rw [if_pos hany]
    by_cases hk : k' = k
    · subst hk
      rw [if_pos rfl]
      exact lookup_map_set_self_of_any l k' v hany
    · rw [if_neg hk]
      exact lookup_map_set_ne l k k' v hk
  · rw [if_neg hany]
    have hnone : lookupKey l k = none := by
      cases hl : lookupKey l k with
      | none => rfl
      | some w =>
        exfalso
        apply hany
        rw [any_key_eq_isSome, hl]
        rfl
    by_cases hk : k' = k
    · subst hk
      rw [if_pos rfl, lookup_append, hnone]
      simp [lookupKey]
    · rw [if_neg hk, lookup_append]
      have hkk : ¬((k : String) = k') := fun he => hk he.symm
      have h2 : lookupKey [(k, v)] k' = none := by
        simp [lookupKey, hkk]
      rw [h2]
      cases lookupKey l k' <;> rfl

theorem lookupKey_dictSetdefault {α : Type} (l : List (String × α))
    (k k' : String) (v : α) :
    lookupKey (dictSetdefault l k v) k' =
      if k' = k then some ((lookupKey l k).getD v) else lookupKey l k' := by
  unfold dictSetdefault
  by_cases hany : l.any (fun p => p.1 = k) = true
  · rw [if_pos hany]
    by_cases hk : k' = k
    · subst hk
      rw [if_pos rfl]
      have hs : (lookupKey l k').isSome = true := by
        rw [← any_key_eq_isSome]
        exact hany
      cases hl : lookupKey l k' with
      | none => rw [hl] at hs; simp at hs
      | some w => simp
    · rw [if_neg hk]
  · rw [if_neg hany]
    have hnone : lookupKey l k = none := by
      cases hl : lookupKey l k with
      | none => rfl
      | some w =>
        exfalso
        apply hany
        rw [any_key_eq_isSome, hl]
        rfl
    by_cases hk : k' = k
    · subst hk
      rw [if_pos rfl, lookup_append, hnone]
      simp [lookupKey]
    · rw [if_neg hk, lookup_append]
      have hkk : ¬((k : String) = k') := fun he => hk he.symm
      have h2 : lookupKey [(k, v)] k' = none := by
        simp [lookupKey, hkk]
      rw [h2]
      cases lookupKey l k' <;> rfl

theorem parse_extension_ok_oid (k : String) (c : Option Bool)
    (v : ExtensionValue) (e : Extension) (h : parse_extension k c v = .ok e) :
    lookupKey EXTENSION_KEY_OIDS k = some e.oid := by
  unfold parse_extension at h
  cases hl : lookupKey EXTENSION_KEY_OIDS k with
  | none => rw [hl] at h; cases h
  | some oid =>
    rw [hl] at h
    cases h
    rfl

theorem processExtensionsFrom_lookup_notResolved
    (exts : List (String × ExtensionConfigValue)) :
    ∀ (acc d : List (String × Option Extension)) (k : String),
    processExtensionsFrom acc exts = .ok d →
    (∀ entry ∈ exts, resolvedExtensionOid entry ≠ some k) →
    lookupKey d k = lookupKey acc k := by
  induction exts with
  | nil =>
    intro acc d k hok _
    cases hok
    rfl
  | cons p rest ih =>
    intro acc d k hok h
    obtain ⟨pk, pv⟩ := p
    unfold processExtensionsFrom at hok
    cases hstep : processExtensionStep acc (pk, pv) with
    | error e => rw [hstep] at hok; cases hok
    | ok acc2 =>
      rw [hstep] at hok
      have hp := h (pk, pv) (List.mem_cons_self _ rest)
      have hk2 : lookupKey acc2 k = lookupKey acc k := by
        cases pv with
        | instanceValue e =>
          rw [show processExtensionStep acc (pk, .instanceValue e) =
            .ok (dictSet acc e.oid (some e)) from rfl] at hstep
          cases hstep
          rw [lookupKey_dictSet]
          refine if_neg ?_
          intro he
          exact hp (by rw [show resolvedExtensionOid (pk, .instanceValue e)
            = some e.oid from rfl, he])
        | noneValue =>
          rw [show processExtensionStep acc (pk, .noneValue) =
            (match lookupKey EXTENSION_KEY_OIDS pk with
             | some oid => .ok (dictSet acc oid none)
             | none => .error (.keyError pk)) from rfl] at hstep
          cases hl : lookupKey EXTENSION_KEY_OIDS pk with
          | none => rw [hl] at hstep; cases hstep
          | some oid =>
            rw [hl] at hstep
            cases hstep
            rw [lookupKey_dictSet]
            refine if_neg ?_
            intro he
            refine hp ?_
            rw [show resolvedExtensionOid (pk, .noneValue)
              = lookupKey EXTENSION_KEY_OIDS pk from rfl, hl, he]
        | parsableValue c v =>
          rw [show processExtensionStep acc (pk, .parsableValue c v) =
            (parse_extension pk c v).map (fun e => dictSet acc e.oid (some e))
            from rfl] at hstep
          cases hpe : parse_extension pk c v with
          | error e2 =>
            rw [hpe] at hstep
            cases hstep
          | ok e =>
            rw [hpe] at hstep
            cases hstep
            rw [lookupKey_dictSet]
            refine if_neg ?_
            intro he
            refine hp ?_
            rw [show resolvedExtensionOid (pk, .parsableValue c v)
              = lookupKey EXTENSION_KEY_OIDS pk from rfl,
              parse_extension_ok_oid pk c v e hpe, he]
      rw [ih acc2 d k hok (fun entry he => h entry (List.mem_cons_of_mem _ he)),
        hk2]

theorem processExtensionsFrom_lookup_all_none
    (exts : List (String × ExtensionConfigValue)) :
    ∀ (acc d : List (String × Option Extension)) (k : String),
    processExtensionsFrom acc exts = .ok d →
    (∃ entry ∈ exts, resolvedExtensionOid entry = some k) →
    (∀ entry ∈ exts, resolvedExtensionOid entry = some k →
      entry.2 = .noneValue) →
    lookupKey d k = some none := by
  induction exts with
  | nil =>
    intro acc d k _ hsome _
    rcases hsome with ⟨entry, he, _⟩
    exact absurd he (List.not_mem_nil entry)
  | cons p rest ih =>
    intro acc d k hok hsome hall
    obtain ⟨pk, pv⟩ := p
    unfold processExtensionsFrom at hok
    cases hstep : processExtensionStep acc (pk, pv) with
    | error e => rw [hstep] at hok; cases hok
    | ok acc2 =>
      rw [hstep] at hok
      by_cases hrest : ∃ entry ∈ rest, resolvedExtensionOid entry = some k
      · exact ih acc2 d k hok hrest
          (fun entry he hr => hall entry (List.mem_cons_of_mem _ he) hr)
      · have hpk : resolvedExtensionOid (pk, pv) = some k := by
          rcases hsome with ⟨entry, he, hre⟩
          rcases List.mem_cons.mp he with he1 | he2
          · rw [← he1]; exact hre
          · exact absurd ⟨entry, he2, hre⟩ hrest
        have hpn : pv = .noneValue := by
          have := hall (pk, pv) (List.mem_cons_self _ rest) hpk
          exact this
        subst hpn
        have hl : lookupKey EXTENSION_KEY_OIDS pk = some k := hpk
        rw [show processExtensionStep acc (pk, .noneValue) =
          (match lookupKey EXTENSION_KEY_OIDS pk with
           | some oid => .ok (dictSet acc oid none)
           | none => .error (.keyError pk)) from rfl, hl] at hstep
        cases hstep
        have hnores : ∀ entry ∈ rest, resolvedExtensionOid entry ≠ some k :=
          fun entry he hre => hrest ⟨entry, he, hre⟩
        rw [processExtensionsFrom_lookup_notResolved rest _ d k hok hnores]
        rw [lookupKey_dictSet, if_pos rfl]

theorem profileInit_extensions (settings : Settings) (name : String)
    (cfg : ProfileConfig) (prof : Profile)
    (hok : profileInit settings name cfg = .ok prof) :
    ∃ d, processExtensions cfg.extensions = .ok d ∧
      prof.extensions = dictSetdefault d ExtensionOID.BASIC_CONSTRAINTS
        (some defaultBasicConstraints) := by
  unfold profileInit at hok
  cases h1 : initSubject settings cfg.subject with
  | error e => rw [h1] at hok; cases hok
  | ok subj =>
    rw [h1] at hok
    cases h2 : initAlgorithm cfg.algorithm with
    | error e => rw [h2] at hok; cases hok
    | ok alg =>
      rw [h2] at hok
      cases h3 : processExtensions cfg.extensions with
      | error e => rw [h3] at hok; cases hok
      | ok d =>
        rw [h3] at hok
        cases hok
        exact ⟨d, rfl, rfl⟩

/-- C7: a freshly constructed Profile's extensions dict holds the
BasicConstraints default (`ca=False`, no path length, the per-variant
default critical flag) unless the `extensions` constructor argument
supplied an entry resolving to the BasicConstraints OID; when the supplied
entries for that OID are explicit `None`s, the dict instead holds `None`
there (the default is suppressed). -/
theorem profile_init_basic_constraints_default (settings : Settings)
    (name : String) (cfg : ProfileConfig) (prof : Profile)
    (hok : profileInit settings name cfg = .ok prof) :
    ((∀ entry ∈ cfg.extensions,
        resolvedExtensionOid entry ≠ some ExtensionOID.BASIC_CONSTRAINTS) →
      lookupKey prof.extensions ExtensionOID.BASIC_CONSTRAINTS =
        some (some defaultBasicConstraints)) ∧
    ((∃ entry ∈ cfg.extensions,
        resolvedExtensionOid entry = some ExtensionOID.BASIC_CONSTRAINTS) →
      (∀ entry ∈ cfg.extensions,
        resolvedExtensionOid entry = some ExtensionOID.BASIC_CONSTRAINTS →
        entry.2 = .noneValue) →
      lookupKey prof.extensions ExtensionOID.BASIC_CONSTRAINTS = some none) := by
  obtain ⟨d, hd, hext⟩ := profileInit_extensions settings name cfg prof hok
  constructor
  · intro hnone
    have hlk : lookupKey d ExtensionOID.BASIC_CONSTRAINTS =
        lookupKey ([] : List (String × Option Extension))
          ExtensionOID.BASIC_CONSTRAINTS :=
      processExtensionsFrom_lookup_notResolved cfg.extensions [] d
        ExtensionOID.BASIC_CONSTRAINTS hd hnone
    rw [hext, lookupKey_dictSetdefault, if_pos rfl, hlk]
    rfl
  · intro hex hall
    have hlk : lookupKey d ExtensionOID.BASIC_CONSTRAINTS = some none :=
      processExtensionsFrom_lookup_all_none cfg.extensions [] d
        ExtensionOID.BASIC_CONSTRAINTS hd hex hall
    rw [hext, lookupKey_dictSetdefault, if_pos rfl, hlk]
    rfl

/-- Witness for C7: the `webserver` fixture (no BasicConstraints entry
supplied) ends up with the BasicConstraints default, while the `client`
fixture (BasicConstraints explicitly `None`) ends up with `None` there. -/
theorem profile_init_basic_constraints_default_witness :
    (match profileInit settingsFixture "webserver" webserverProfileConfig with
     | .ok prof => lookupKey prof.extensions ExtensionOID.BASIC_CONSTRAINTS
     | .error _ => none) = some (some defaultBasicConstraints) ∧
    (match profileInit settingsFixture "client" clientProfileConfig with
     | .ok prof => lookupKey prof.extensions ExtensionOID.BASIC_CONSTRAINTS
     | .error _ => none) = some none := by
  constructor
  · cases hok : profileInit settingsFixture "webserver" webserverProfileConfig with
    | error e =>
      have hok2 : (profileInit settingsFixture "webserver"
          webserverProfileConfig).isOk = true := by rfl
      rw [hok] at hok2
      simp [Except.isOk, Except.toBool] at hok2
    | ok prof =>
      have h := (profile_init_basic_constraints_default settingsFixture
        "webserver" webserverProfileConfig prof hok).1 (by decide)
      simp only [h]
  · cases hok : profileInit settingsFixture "client" clientProfileConfig with
    | error e =>
      have hok2 : (profileInit settingsFixture "client"
          clientProfileConfig).isOk = true := by rfl
      rw [hok] at hok2
      simp [Except.isOk, Except.toBool] at hok2
    | ok prof =>
      have h := (profile_init_basic_constraints_default settingsFixture
        "client" clientProfileConfig prof hok).2 (by decide)
        (by decide)
      simp only [h]

/-- C8: `create_cert` only ever rebinds its local working extension
mapping; the state it can see — the profile's stored attributes and the
`ca` and `csr` objects — is returned unchanged whether the call returns a
certificate or raises. -/
theorem create_cert_frame (s : CreateCertState) (p : CreateCertParams)
    (serial now : Nat) (fmt : String → String) :
    (Profile.create_cert s p serial now fmt).2 = s := by
  unfold Profile.create_cert
  simp only [id]
  repeat' split
  all_goals rfl

theorem isKeyError_error_eq (α β : Type) (e : PyError) :
    isKeyError (Except.error e : Except PyError α) =
      isKeyError (Except.error e : Except PyError β) := by
  cases e <;> rfl

theorem x509_name_from_no_keyError (pairs : List (String × String)) :
    ∀ acc, isKeyError (x509_name_from acc pairs) = false := by
  induction pairs with
  | nil => intro acc; rfl
  | cons p rest ih =>
    intro acc
    unfold x509_name_from
    cases hl : lookupKey NAME_ATTR_OIDS p.1 with
    | some oid => exact ih _
    | none => rfl

theorem initSubject_no_keyError (settings : Settings) (arg : SubjectArg) :
    isKeyError (initSubject settings arg) = false := by
  cases arg with
  | noneArg => rfl
  | falseArg => rfl
  | nameArg n => rfl
  | pairsArg pairs =>
    unfold initSubject
    dsimp only
    cases hx : x509_name pairs with
    | ok n => rfl
    | error e =>
      have h2 := x509_name_from_no_keyError pairs []
      unfold x509_name at hx
      rw [hx] at h2
      exact (isKeyError_error_eq SubjectSetting Name e).trans h2

theorem initAlgorithm_no_keyError (a : Option String) :
    isKeyError (initAlgorithm a) = false := by
  cases a with
  | none => rfl
  | some s =>
    unfold initAlgorithm
    dsimp only
    cases hl : lookupKey HASH_ALGORITHM_TYPES s with
    | some t => rfl
    | none => rfl

theorem processExtensionsFrom_no_keyError
    (exts : List (String × ExtensionConfigValue)) :
    ∀ acc,
    (∀ p ∈ exts,
      (match p.2 with
       | ExtensionConfigValue.instanceValue _ => true
       | ExtensionConfigValue.noneValue =>
         (lookupKey EXTENSION_KEY_OIDS p.1).isSome
       | ExtensionConfigValue.parsableValue _ _ =>
         (lookupKey EXTENSION_KEY_OIDS p.1).isSome) = true) →
    isKeyError (processExtensionsFrom acc exts) = false := by
  induction exts with
  | nil => intro acc _; rfl
  | cons p rest ih =>
    intro acc h
    obtain ⟨pk, pv⟩ := p
    have hp := h (pk, pv) (List.mem_cons_self _ rest)
    have hrest := fun q hq => h q (List.mem_cons_of_mem _ hq)
    unfold processExtensionsFrom
    cases pv with
    | instanceValue e =>
      rw [show processExtensionStep acc (pk, .instanceValue e) =
        .ok (dictSet acc e.oid (some e)) from rfl]
      exact ih _ hrest
    | noneValue =>
      simp only at hp
      rcases Option.isSome_iff_exists.mp hp with ⟨oid, hl⟩
      rw [show processExtensionStep acc (pk, .noneValue) =
        (match lookupKey EXTENSION_KEY_OIDS pk with
         | some oid => .ok (dictSet acc oid none)
         | none => .error (.keyError pk)) from rfl, hl]
      exact ih _ hrest
    | parsableValue c v =>
      simp only at hp
      rcases Option.isSome_iff_exists.mp hp with ⟨oid, hl⟩
      have hpe : parse_extension pk c v =
          .ok ⟨oid, c.getD (EXTENSION_DEFAULT_CRITICAL oid), v⟩ := by
        unfold parse_extension
        rw [hl]
      rw [show processExtensionStep acc (pk, .parsableValue c v) =
        (parse_extension pk c v).map (fun e => dictSet acc e.oid (some e))
        from rfl, hpe]
      exact ih _ hrest

theorem profileInit_no_keyError (settings : Settings) (name : String)
    (cfg : ProfileConfig) (h : extensionKeysRecognized cfg = true) :
    isKeyError (profileInit settings name cfg) = false := by
  unfold profileInit
  cases h1 : initSubject settings cfg.subject with
  | error e =>
    have := initSubject_no_keyError settings cfg.subject
    rw [h1] at this
    exact (isKeyError_error_eq Profile SubjectSetting e).trans this
  | ok subj =>
    cases h2 : initAlgorithm cfg.algorithm with
    | error e =>
      have := initAlgorithm_no_keyError cfg.algorithm
      rw [h2] at this
      exact (isKeyError_error_eq Profile (Option HashAlgorithm) e).trans this
    | ok alg =>
      cases h3 : processExtensions cfg.extensions with
      | error e =>
        have hh := List.all_eq_true.mp h
        have := processExtensionsFrom_no_keyError cfg.extensions [] hh
        unfold processExtensions at h3
        rw [h3] at this
        exact (isKeyError_error_eq Profile
          (List (String × Option Extension)) e).trans this
      | ok d => rfl

theorem lookupKey_mem {α : Type} (l : List (String × α)) (k : String) (v : α)
    (h : lookupKey l k = some v) : (k, v) ∈ l := by
  induction l with
  | nil => cases h
  | cons q rest ih =>
    obtain ⟨qk, qv⟩ := q
    by_cases hq : qk = k
    · subst hq
      rw [show lookupKey ((qk, qv) :: rest) qk =
        if (qk, qv).1 = qk then some qv else lookupKey rest qk from rfl,
        if_pos rfl] at h
      cases h
      exact List.mem_cons_self _ _
    · rw [show lookupKey ((qk, qv) :: rest) k =
        if (qk, qv).1 = k then some qv else lookupKey rest k from rfl,
        if_neg hq] at h
      exact List.mem_cons_of_mem _ (ih h)

/-- C9: `get_profile` resolves a missing name to the configured default,
and fails with a `KeyError` exactly when the effective name is not a
configured profile name (given a configuration whose extension keys are
all recognized, lookups inside `Profile.__init__` cannot themselves raise
`KeyError`). -/
theorem get_profile_spec (settings : Settings) (name : Option String)
    (hwf : ∀ p ∈ settings.CA_PROFILES, extensionKeysRecognized p.2 = true) :
    (isKeyError (get_profile settings name) = true ↔
      lookupKey settings.CA_PROFILES
        (match name with
         | none => settings.CA_DEFAULT_PROFILE
         | some s => s) = none) ∧
    get_profile settings none =
      get_profile settings (some settings.CA_DEFAULT_PROFILE) := by
  constructor
  · have key : ∀ n : String,
        isKeyError (match lookupKey settings.CA_PROFILES n with
          | none => Except.error (PyError.keyError n)
          | some cfg => profileInit settings n cfg) = true ↔
        lookupKey settings.CA_PROFILES n = none := by
      intro n
      cases hl : lookupKey settings.CA_PROFILES n with
      | none => simp [isKeyError]
      | some cfg =>
        constructor
        · intro hk
          exfalso
          have hmem := lookupKey_mem settings.CA_PROFILES n cfg hl
          have hrec := hwf (n, cfg) hmem
          have hno := profileInit_no_keyError settings n cfg hrec
          rw [hno] at hk
          cases hk
        · intro h
          cases h
    exact key _
  · rfl

/-- Witness for C9: in the fixture configuration, an unknown name is a
`KeyError`, a configured name is not, and calling with no name resolves to
the configured default profile. -/
theorem get_profile_spec_witness :
    isKeyError (get_profile settingsFixture (some "missing")) = true ∧
    isKeyError (get_profile settingsFixture (some "client")) = false ∧
    get_profile settingsFixture none = get_profile settingsFixture (some "webserver") := by
  have h1 := get_profile_spec settingsFixture (some "missing") (by decide)
  have h2 := get_profile_spec settingsFixture (some "client") (by decide)
  have h3 := get_profile_spec settingsFixture none (by decide)
  refine ⟨h1.1.mpr (by rfl), ?_, h3.2⟩
  cases hik : isKeyError (get_profile settingsFixture (some "client")) with
  | false => rfl
  | true =>
    have hl := h2.1.mp hik
    rw [show lookupKey settingsFixture.CA_PROFILES
      (match some "client" with
       | none => settingsFixture.CA_DEFAULT_PROFILE
       | some q => q) = some clientProfileConfig from rfl] at hl
    cases hl

theorem nodup_lookup_of_mem {α : Type} (l : List (String × α))
    (h : (l.map Prod.fst).Nodup) (p : String × α) (hp : p ∈ l) :
    lookupKey l p.1 = some p.2 := by
  induction l with
  | nil => cases hp
  | cons q rest ih =>
    simp only [List.map_cons, List.nodup_cons] at h
    rcases List.mem_cons.mp hp with h1 | h2
    · subst h1
      show (if p.1 = p.1 then some p.2 else lookupKey rest p.1) = some p.2
      rw [if_pos rfl]
    · have hne : q.1 ≠ p.1 := by
        intro he
        exact h.1 (he ▸ List.mem_map_of_mem Prod.fst h2)
      show (if q.1 = p.1 then some q.2 else lookupKey rest p.1) = some p.2
      rw [if_neg hne]
      exact ih h.2 h2

theorem dictBEq_iff {α : Type} [DecidableEq α] (a b : List (String × α))
    (ha : (a.map Prod.fst).Nodup) (hb : (b.map Prod.fst).Nodup) :
    dictBEq a b = true ↔ ∀ k, lookupKey a k = lookupKey b k := by
  unfold dictBEq
  rw [Bool.and_eq_true, List.all_eq_true, List.all_eq_true]
  constructor
  · rintro ⟨h1, h2⟩ k
    cases hl : lookupKey a k with
    | some v =>
      have hmem := lookupKey_mem a k v hl
      have hv := h1 (k, v) hmem
      rw [decide_eq_true_eq] at hv
      exact hv.symm
    | none =>
      cases hlb : lookupKey b k with
      | none => rfl
      | some w =>
        have hmem := lookupKey_mem b k w hlb
        have hw := h2 (k, w) hmem
        rw [decide_eq_true_eq] at hw
        rw [hw] at hl
        cases hl
  · intro h
    constructor
    · intro p hp
      rw [decide_eq_true_eq, ← h p.1]
      exact nodup_lookup_of_mem a ha p hp
    · intro p hp
      rw [decide_eq_true_eq, h p.1]
      exact nodup_lookup_of_mem b hb p hp

theorem sameAlgorithmType_iff (x y : Option HashAlgorithm) :
    sameAlgorithmType x y = true ↔
      x.map HashAlgorithm.typeName = y.map HashAlgorithm.typeName := by
  cases x <;> cases y <;> simp [sameAlgorithmType]

/-- C10: `Profile.__eq__` holds exactly when name, subject, the extensions
dict (as a dict: pointwise lookups), `cn_in_san`, `expires`, the four
`add_*` toggles and `description` agree and the `algorithm` attributes have
the same type; `autogenerated` is not compared, and two distinct instances
of the same hash class compare as equal algorithms. -/
theorem profile_eq_spec (a b : Profile)
    (ha : (a.extensions.map Prod.fst).Nodup)
    (hb : (b.extensions.map Prod.fst).Nodup) :
    (profileEq a b = true ↔
      (a.name = b.name ∧ a.subject = b.subject ∧
        a.algorithm.map HashAlgorithm.typeName =
          b.algorithm.map HashAlgorithm.typeName ∧
        (∀ k, lookupKey a.extensions k = lookupKey b.extensions k) ∧
        a.cn_in_san = b.cn_in_san ∧ a.expires = b.expires ∧
        a.add_crl_url = b.add_crl_url ∧ a.add_issuer_url = b.add_issuer_url ∧
        a.add_ocsp_url = b.add_ocsp_url ∧
        a.add_issuer_alternative_name = b.add_issuer_alternative_name ∧
        a.description = b.description)) ∧
    (∀ x y : Bool,
      profileEq { a with autogenerated := x } { b with autogenerated := y } =
        profileEq a b) ∧
    (∀ (t : String) (i j : Nat),
      profileEq { a with algorithm := some ⟨t, i⟩ }
          { b with algorithm := some ⟨t, j⟩ } =
        profileEq { a with algorithm := none } { b with algorithm := none }) := by
  refine ⟨?_, ?_, ?_⟩
  · unfold profileEq
    simp only [Bool.and_eq_true, decide_eq_true_eq,
      sameAlgorithmType_iff, dictBEq_iff a.extensions b.extensions ha hb]
    tauto
  · intro x y
    rfl
  · intro t i j
    unfold profileEq
    simp [sameAlgorithmType]

/-- Witness for C10: two profiles differing only in `autogenerated` and in
the identity (not the type) of their algorithm instances compare equal;
changing `description` breaks equality. -/
theorem profile_eq_spec_witness :
    profileEq
        { profileCountryOnly with
          autogenerated := true
          algorithm := some ⟨"SHA256", 1⟩ }
        { profileCountryOnly with
          autogenerated := false
          algorithm := some ⟨"SHA256", 2⟩ } = true ∧
    profileEq profileCountryOnly
        { profileCountryOnly with description := "changed" } = false := by
  constructor
  · have h := (profile_eq_spec
      { profileCountryOnly with
        autogenerated := true
        algorithm := some ⟨"SHA256", 1⟩ }
      { profileCountryOnly with
        autogenerated := false
        algorithm := some ⟨"SHA256", 2⟩ } (by decide) (by decide)).1
    refine h.mpr ?_
    refine ⟨rfl, rfl, rfl, ?_, rfl, rfl, rfl, rfl, rfl, rfl, rfl⟩
    intro k
    rfl
  · have h := (profile_eq_spec profileCountryOnly
      { profileCountryOnly with description := "changed" }
      (by decide) (by decide)).1
    cases heq : profileEq profileCountryOnly
        { profileCountryOnly with description := "changed" } with
    | false => rfl
    | true =>
      have hd := (h.mp heq).2.2.2.2.2.2.2.2.2.2
      exact absurd hd (by decide)

end DjangoCA
